import Mathlib

/-!
Shallow embedding of the core of the ndimage library (2-D image buffers,
border padding, kernel convolution), translated from the Rust sources:
src/core/rect.rs, src/core/image2d.rs, src/core/padding.rs,
src/core/pixel_types.rs, src/core/traits.rs, src/processing/kernel.rs.

Modelling conventions:
* u32 values are modelled as Nat; u32 subtraction is modelled by the
  checked function sub32 below, whose error case models the debug-mode
  overflow panic of Rust unsigned subtraction.
* A Rust panic (assert failure, Option/Result unwrap, out-of-bounds
  ndarray slice) is modelled as Except.error; recoverable Results are
  also Except values, with the distinction recorded in comments.
* Images are a width, a height and the row-major backing Vec of pixels,
  as in ndarray-backed ImageBuffer2D.  In-bounds pixel access is total
  (List.getD with the Inhabited default); every theorem below only ever
  reads in-bounds cells of well-formed buffers.
* Loops over zipped iterators are translated to folds over the row-major
  coordinate list of the written rectangle, with zip truncation rendered
  through min of the two lengths.
-/

/-- Chunks of size n of a list, last chunk possibly shorter: the model of
Rust slice::chunks(n) as used by from_raw_vec.  (chunks(0) panics in Rust
and is never used; the n = 0 case of this function is junk.) -/
def listChunksF (n : Nat) : Nat → List α → List (List α)
  | _, [] => []
  | 0, _ :: _ => []
  | fuel + 1, a :: l => ((a :: l).take n) :: listChunksF n fuel (l.drop (n - 1))

/-- The fuel l.length always suffices, so listChunks satisfies the direct
recursion listChunks n (a :: l) = take n (a :: l) :: listChunks n (drop (n-1) l);
the fuel only makes the recursion structural. -/
def listChunks (n : Nat) (l : List α) : List (List α) := listChunksF n l.length l

/-- Pixel::from_slice (src/core/pixel_types.rs lines 426-432): start from the
zero pixel (n channels of zero) and overwrite with the zipped slice elements;
the zip stops at the shorter sequence, so a short slice leaves trailing
channels at zero and a long slice has its extra elements ignored. -/
def from_slice_list [Zero α] : Nat → List α → List α
  | 0, _ => []
  | n + 1, [] => 0 :: from_slice_list n []
  | n + 1, c :: s => c :: from_slice_list n s

/-- Pixel::set_to_slice (src/core/pixel_types.rs lines 434-438): overwrite the
existing channels with the zipped slice elements; the zip stops at the
shorter sequence. -/
def set_to_slice_list : List α → List α → List α
  | [], _ => []
  | d, [] => d
  | _ :: d, e :: s => e :: set_to_slice_list d s

/-- Row-major coordinate list of a w-by-h rectangle: pairs (i, j) with the
column index i running fastest, matching ndarray standard-order iteration. -/
def rowMajor (w h : Nat) : List (Nat × Nat) :=
  (List.range h).flatMap (fun j => (List.range w).map (fun i => (i, j)))

/-- Checked u32 subtraction: Except.error models the debug-mode panic of an
underflowing Rust u32 subtraction. -/
def sub32 (a b : Nat) : Except String Nat :=
  if b ≤ a then Except.ok (a - b) else Except.error "attempt to subtract with overflow"

/-- Option::unwrap, the Rust panic modelled as Except.error. -/
def optUnwrap : Option α → Except String α
  | some a => Except.ok a
  | none => Except.error "called Option::unwrap on a None value"

/-- Rect (src/core/rect.rs): left, top, width, height. -/
structure Rect where
  left : Nat
  top : Nat
  width : Nat
  height : Nat
deriving DecidableEq, Repr

/-- Rect::new (src/core/rect.rs lines 18-30); the assert on strictly positive
dimensions is modelled as the error case. -/
def Rect.new (x y w h : Nat) : Except String Rect :=
  if w ≠ 0 ∧ h ≠ 0 then Except.ok ⟨x, y, w, h⟩
  else Except.error "Rect dimensions must be strictly positive."

/-- Rect::right. -/
def Rect.right (r : Rect) : Nat := r.left + r.width - 1

/-- Rect::bottom. -/
def Rect.bottom (r : Rect) : Nat := r.top + r.height - 1

/-- Rect::size. -/
def Rect.size (r : Rect) : Nat × Nat := (r.width, r.height)

/-- Rect::intersection (src/core/rect.rs lines 73-84).  The inner Rect::new
cannot fail because left ≤ right and top ≤ bottom force positive sizes. -/
def Rect.intersection (a b : Rect) : Option Rect :=
  let left := max a.left b.left
  let top := max a.top b.top
  let right := min a.right b.right
  let bottom := min a.bottom b.bottom
  if left ≤ right ∧ top ≤ bottom then
    (Rect.new left top (right - left + 1) (bottom - top + 1)).toOption
  else none

/-- Image2d: ndarray-backed ImageBuffer2D (src/core/image2d.rs), a row-major
contiguous buffer of pixels with its dimensions. -/
structure Image2d (P : Type) where
  width : Nat
  height : Nat
  data : List P
deriving DecidableEq, Repr

/-- Image2D::get_pixel (src/core/image2d.rs line 217): row-major indexed read.
All reads performed by the theorems below are in bounds, where the Inhabited
default is never returned. -/
def get_pixel [Inhabited P] (img : Image2d P) (x y : Nat) : P :=
  img.data.getD (y * img.width + x) default

/-- A single row-major indexed write, the building block of the loop models
below (Image2DMut::put_pixel, src/core/image2d.rs line 276). -/
def put_pixel (img : Image2d P) (x y : Nat) (p : P) : Image2d P :=
  { img with data := img.data.set (y * img.width + x) p }

/-- Perform a sequence of indexed writes (x, y, value) in order. -/
def writeCells (img : Image2d P) (cells : List (Nat × Nat × P)) : Image2d P :=
  cells.foldl (fun im c => put_pixel im c.1 c.2.1 c.2.2) img

/-- A rectangular write loop: for every (i, j) of the row-major W-by-H
coordinate grid, write value v i j at target coordinate t i j.  Each loop of
padding.rs (blit_rect zips, view fills, mirrored row/column zips) is an
instance of this with its own target map t. -/
def mapRectWrite (dst : Image2d P) (W H : Nat) (t : Nat → Nat → Nat × Nat)
    (v : Nat → Nat → P) : Image2d P :=
  writeCells dst ((rowMajor W H).map (fun p => ((t p.1 p.2).1, (t p.1 p.2).2, v p.1 p.2)))

/-- ImageBuffer2D::from_elem (ndarray Array2::from_elem): a w-by-h buffer
filled with one value. -/
def from_elem (w h : Nat) (val : P) : Image2d P :=
  ⟨w, h, List.replicate (w * h) val⟩

/-- Image2D::rect (src/core/image2d.rs line 51): Rect::new(0, 0, w, h), which
panics on an empty image. -/
def Image2d.rect (img : Image2d P) : Except String Rect :=
  Rect.new 0 0 img.width img.height

/-- Rect::fits_image (src/core/rect.rs lines 87-92). -/
def Rect.fits_image (r : Rect) (img : Image2d P) : Prop :=
  r.right < img.width ∧ r.bottom < img.height

instance (r : Rect) (img : Image2d P) : Decidable (r.fits_image img) :=
  inferInstanceAs (Decidable (_ ∧ _))

/-- Rect::crop_to_image (src/core/rect.rs lines 95-101): intersect with the
full-image rectangle (whose construction panics on an empty image). -/
def crop_to_image (r : Rect) (img : Image2d P) : Except String (Option Rect) := do
  let full ← Rect.new 0 0 img.width img.height
  pure (r.intersection full)

/-- Image2D::row as a list (src/core/image2d.rs lines 226-232). -/
def row_list [Inhabited P] (img : Image2d P) (y : Nat) : Option (List P) :=
  if y < img.height then
    some ((List.range img.width).map (fun x => get_pixel img x y))
  else none

/-- Image2D::col as a list (src/core/image2d.rs lines 238-244). -/
def col_list [Inhabited P] (img : Image2d P) (x : Nat) : Option (List P) :=
  if x < img.width then
    some ((List.range img.height).map (fun y => get_pixel img x y))
  else none

/-- Image2D::rect_iter (src/core/image2d.rs lines 250-257) as the row-major
list of the pixels of a rectangle.  The source deliberately does not
re-validate the rectangle against the image bounds (spec 4.3); all uses below
are validated by their callers. -/
def rect_iter_list [Inhabited P] (img : Image2d P) (rect : Rect) : List P :=
  (rowMajor rect.width rect.height).map
    (fun p => get_pixel img (rect.left + p.1) (rect.top + p.2))

/-- Image2DMut::blit_rect (src/core/image2d.rs lines 140-160): check equal
sizes and both fits, then copy pixel-for-pixel in rect_iter order, which for
equal sizes is the coordinatewise row-major copy below. -/
def blit_rect [Inhabited P] (dst : Image2d P) (src_rect dst_rect : Rect)
    (img : Image2d P) : Except String (Image2d P) :=
  if src_rect.size ≠ dst_rect.size then
    Except.error "Rects are not the same size."
  else if ¬ src_rect.fits_image img then
    Except.error "Source rect does not fit source image."
  else if ¬ dst_rect.fits_image dst then
    Except.error "Source rect does not fit destination image."
  else
    Except.ok (mapRectWrite dst src_rect.width src_rect.height
      (fun i j => (dst_rect.left + i, dst_rect.top + j))
      (fun i j => get_pixel img (src_rect.left + i) (src_rect.top + j)))

/-- dst.sub_image_mut(rect).fill(val) (padding.rs lines 62-66): the mutable
view aliases the rect region of dst, so the fill writes val to every cell of
the rect.  The ndarray slice taken by sub_image_mut panics when the rect
leaves the buffer, modelled by the error case. -/
def sub_image_fill [Inhabited P] (dst : Image2d P) (rect : Rect) (val : P) :
    Except String (Image2d P) :=
  if rect.right < dst.width ∧ rect.bottom < dst.height then
    Except.ok (mapRectWrite dst rect.width rect.height
      (fun i j => (rect.left + i, rect.top + j)) (fun _ _ => val))
  else Except.error "ndarray slice out of bounds"

/-- outer.cols_mut().zip(vals) with col.fill(value) (padding.rs lines 78-83,
105-117): column i of the view rect (i below min(rect.width, vals.length))
is filled with vals[i]. -/
def sub_image_fill_cols [Inhabited P] (dst : Image2d P) (rect : Rect)
    (vals : List P) : Except String (Image2d P) :=
  if rect.right < dst.width ∧ rect.bottom < dst.height then
    Except.ok (mapRectWrite dst (min rect.width vals.length) rect.height
      (fun i j => (rect.left + i, rect.top + j)) (fun i _ => vals.getD i default))
  else Except.error "ndarray slice out of bounds"

/-- outer.rows_mut().zip(vals) with row.fill(value) (padding.rs lines 84-104):
row j of the view rect (j below min(rect.height, vals.length)) is filled with
vals[j]. -/
def sub_image_fill_rows [Inhabited P] (dst : Image2d P) (rect : Rect)
    (vals : List P) : Except String (Image2d P) :=
  if rect.right < dst.width ∧ rect.bottom < dst.height then
    Except.ok (mapRectWrite dst rect.width (min rect.height vals.length)
      (fun i j => (rect.left + i, rect.top + j)) (fun _ j => vals.getD j default))
  else Except.error "ndarray slice out of bounds"

/-- copy_and_mirror_subimage_both (padding.rs lines 178-186): source rows are
zipped with the reversed destination rows and source pixels with the reversed
destination pixels, so source cell (i, j) lands at destination cell
(width-1-i, height-1-j) of the destination rect.  Both sub-image slices panic
out of bounds, in source order (source rect first). -/
def mirror_copy_both [Inhabited P] (padded img : Image2d P)
    (src_rect dst_rect : Rect) : Except String (Image2d P) :=
  if ¬ (src_rect.right < img.width ∧ src_rect.bottom < img.height) then
    Except.error "ndarray slice out of bounds"
  else if ¬ (dst_rect.right < padded.width ∧ dst_rect.bottom < padded.height) then
    Except.error "ndarray slice out of bounds"
  else
    Except.ok (mapRectWrite padded (min src_rect.width dst_rect.width)
      (min src_rect.height dst_rect.height)
      (fun i j => (dst_rect.left + (dst_rect.width - 1 - i),
                   dst_rect.top + (dst_rect.height - 1 - j)))
      (fun i j => get_pixel img (src_rect.left + i) (src_rect.top + j)))

/-- copy_and_mirror_subimage_hor (padding.rs lines 205-213): rows in order,
pixels of each row reversed. -/
def mirror_copy_hor [Inhabited P] (padded img : Image2d P)
    (src_rect dst_rect : Rect) : Except String (Image2d P) :=
  if ¬ (src_rect.right < img.width ∧ src_rect.bottom < img.height) then
    Except.error "ndarray slice out of bounds"
  else if ¬ (dst_rect.right < padded.width ∧ dst_rect.bottom < padded.height) then
    Except.error "ndarray slice out of bounds"
  else
    Except.ok (mapRectWrite padded (min src_rect.width dst_rect.width)
      (min src_rect.height dst_rect.height)
      (fun i j => (dst_rect.left + (dst_rect.width - 1 - i), dst_rect.top + j))
      (fun i j => get_pixel img (src_rect.left + i) (src_rect.top + j)))

/-- copy_and_mirror_subimage_ver (padding.rs lines 224-231): rows reversed,
pixels of each row in order. -/
def mirror_copy_ver [Inhabited P] (padded img : Image2d P)
    (src_rect dst_rect : Rect) : Except String (Image2d P) :=
  if ¬ (src_rect.right < img.width ∧ src_rect.bottom < img.height) then
    Except.error "ndarray slice out of bounds"
  else if ¬ (dst_rect.right < padded.width ∧ dst_rect.bottom < padded.height) then
    Except.error "ndarray slice out of bounds"
  else
    Except.ok (mapRectWrite padded (min src_rect.width dst_rect.width)
      (min src_rect.height dst_rect.height)
      (fun i j => (dst_rect.left + i, dst_rect.top + (dst_rect.height - 1 - j)))
      (fun i j => get_pixel img (src_rect.left + i) (src_rect.top + j)))

/-- pad_constant (src/core/padding.rs lines 35-44): allocate the enlarged
buffer filled with val, then blit the source into the center; blit_rect is
unwrapped, so its error is a panic. -/
def pad_constant [Inhabited P] (img : Image2d P) (size : Nat × Nat) (val : P) :
    Except String (Image2d P) := do
  let w := img.width
  let h := img.height
  let padded := from_elem (w + 2 * size.1) (h + 2 * size.2) val
  let r ← Rect.new size.1 size.2 w h
  let rimg ← img.rect
  blit_rect padded rimg r img

/-- pad_zeros (src/core/padding.rs lines 47-51). -/
def pad_zeros [Inhabited P] [Zero P] (img : Image2d P) (size : Nat × Nat) :
    Except String (Image2d P) :=
  pad_constant img size 0

/-- pad_replicate (src/core/padding.rs lines 54-120): pad with zeros, fill the
four corner blocks with the nearest source corner pixel, then fill the four
edge strips by replicating the nearest source row/column.  Note the bottom
side rect (source lines 108-113) uses size.0 as its height. -/
def pad_replicate [Inhabited P] [Zero P] (img : Image2d P) (size : Nat × Nat) :
    Except String (Image2d P) := do
  let w := img.width
  let h := img.height
  let padded ← pad_zeros img size
  -- fill_corner(0, 0, img.get_pixel(0, 0))
  let r1 ← Rect.new 0 0 size.1 size.2
  let padded ← sub_image_fill padded r1 (get_pixel img 0 0)
  -- fill_corner(0, h + size.1, img.get_pixel(0, h - 1))
  let hm1 ← sub32 h 1
  let r2 ← Rect.new 0 (h + size.2) size.1 size.2
  let padded ← sub_image_fill padded r2 (get_pixel img 0 hm1)
  -- fill_corner(w + size.0, 0, img.get_pixel(w - 1, 0))
  let wm1 ← sub32 w 1
  let r3 ← Rect.new (w + size.1) 0 size.1 size.2
  let padded ← sub_image_fill padded r3 (get_pixel img wm1 0)
  -- fill_corner(w + size.0, h + size.1, img.get_pixel(w - 1, h - 1))
  let r4 ← Rect.new (w + size.1) (h + size.2) size.1 size.2
  let padded ← sub_image_fill padded r4 (get_pixel img wm1 hm1)
  -- top side: cols of the view (size.0, 0, w, size.1) zipped with img.row(0)
  let top ← optUnwrap (row_list img 0)
  let rt ← Rect.new size.1 0 w size.2
  let padded ← sub_image_fill_cols padded rt top
  -- left side: rows of the view (0, size.1, size.0, h) zipped with img.col(0)
  let lft ← optUnwrap (col_list img 0)
  let rl ← Rect.new 0 size.2 size.1 h
  let padded ← sub_image_fill_rows padded rl lft
  -- right side: rows of the view (w + size.0, size.1, size.0, h) zipped with
  -- img.col(w - 1)
  let rgt ← optUnwrap (col_list img wm1)
  let rr ← Rect.new (w + size.1) size.2 size.1 h
  let padded ← sub_image_fill_rows padded rr rgt
  -- bottom side: cols of the view (size.0, h + size.1, w, size.0) zipped with
  -- img.row(h - 1); the rect height is size.0 in the source
  let bot ← optUnwrap (row_list img hm1)
  let rb ← Rect.new size.1 (h + size.2) w size.1
  sub_image_fill_cols padded rb bot

/-- pad_wrap (src/core/padding.rs lines 123-168): pad with zeros, then eight
unwrapped blit_rect calls move the opposite corner blocks and edge strips of
the source into the margin. -/
def pad_wrap [Inhabited P] [Zero P] (img : Image2d P) (size : Nat × Nat) :
    Except String (Image2d P) := do
  let w := img.width
  let h := img.height
  let padded ← pad_zeros img size
  -- top-left corner of the source to the bottom-right margin corner
  let s1 ← Rect.new 0 0 size.1 size.2
  let d1 ← Rect.new (w + size.1) (h + size.2) size.1 size.2
  let padded ← blit_rect padded s1 d1 img
  -- top-right corner of the source to the bottom-left margin corner
  let a2 ← sub32 w size.1
  let s2 ← Rect.new a2 0 size.1 size.2
  let d2 ← Rect.new 0 (h + size.2) size.1 size.2
  let padded ← blit_rect padded s2 d2 img
  -- bottom-left corner of the source to the top-right margin corner
  let b3 ← sub32 h size.2
  let s3 ← Rect.new 0 b3 size.1 size.2
  let d3 ← Rect.new (w + size.1) 0 size.1 size.2
  let padded ← blit_rect padded s3 d3 img
  -- bottom-right corner of the source to the top-left margin corner
  let a4 ← sub32 w size.1
  let b4 ← sub32 h size.2
  let s4 ← Rect.new a4 b4 size.1 size.2
  let d4 ← Rect.new 0 0 size.1 size.2
  let padded ← blit_rect padded s4 d4 img
  -- top rows of the source to the bottom margin
  let s5 ← Rect.new 0 0 w size.2
  let d5 ← Rect.new size.1 (h + size.2) w size.2
  let padded ← blit_rect padded s5 d5 img
  -- left columns of the source to the right margin
  let s6 ← Rect.new 0 0 size.1 h
  let d6 ← Rect.new (w + size.1) size.2 size.1 h
  let padded ← blit_rect padded s6 d6 img
  -- right columns of the source to the left margin
  let a7 ← sub32 w size.1
  let s7 ← Rect.new a7 0 size.1 h
  let d7 ← Rect.new 0 size.2 size.1 h
  let padded ← blit_rect padded s7 d7 img
  -- bottom rows of the source to the top margin
  let b8 ← sub32 h size.2
  let s8 ← Rect.new 0 b8 w size.2
  let d8 ← Rect.new size.1 0 w size.2
  blit_rect padded s8 d8 img

/-- pad_mirror (src/core/padding.rs lines 171-244): pad with zeros, then copy
the four corner blocks reversed in both directions, the two side strips with
each row reversed, and the top/bottom strips with the rows reversed.  Note
the second hor copy (source lines 218-221) uses size.1 as the source rect
width and the second ver copy (source lines 237-240) uses size.0 as the
source rect height. -/
def pad_mirror [Inhabited P] [Zero P] (img : Image2d P) (size : Nat × Nat) :
    Except String (Image2d P) := do
  let w := img.width
  let h := img.height
  let padded ← pad_zeros img size
  -- corners, both directions mirrored
  let s1 ← Rect.new 0 0 size.1 size.2
  let d1 ← Rect.new 0 0 size.1 size.2
  let padded ← mirror_copy_both padded img s1 d1
  let a2 ← sub32 w size.1
  let s2 ← Rect.new a2 0 size.1 size.2
  let d2 ← Rect.new (w + size.1) 0 size.1 size.2
  let padded ← mirror_copy_both padded img s2 d2
  let b3 ← sub32 h size.2
  let s3 ← Rect.new 0 b3 size.1 size.2
  let d3 ← Rect.new 0 (h + size.2) size.1 size.2
  let padded ← mirror_copy_both padded img s3 d3
  let a4 ← sub32 w size.1
  let b4 ← sub32 h size.2
  let s4 ← Rect.new a4 b4 size.1 size.2
  let d4 ← Rect.new (w + size.1) (h + size.2) size.1 size.2
  let padded ← mirror_copy_both padded img s4 d4
  -- left and right strips, each row mirrored
  let s5 ← Rect.new 0 0 size.1 h
  let d5 ← Rect.new 0 size.2 size.1 h
  let padded ← mirror_copy_hor padded img s5 d5
  let a6 ← sub32 w size.1
  let s6 ← Rect.new a6 0 size.2 h
  let d6 ← Rect.new (w + size.1) size.2 size.1 h
  let padded ← mirror_copy_hor padded img s6 d6
  -- top and bottom strips, rows mirrored
  let s7 ← Rect.new 0 0 w size.2
  let d7 ← Rect.new size.1 0 w size.2
  let padded ← mirror_copy_ver padded img s7 d7
  let b8 ← sub32 h size.2
  let s8 ← Rect.new 0 b8 w size.1
  let d8 ← Rect.new size.1 (h + size.2) w size.2
  mirror_copy_ver padded img s8 d8

/-- Padding (src/core/padding.rs lines 6-17). -/
inductive Padding (P : Type) where
  | constant (p : P)
  | replicate
  | wrap
  | mirror

/-- Padding::apply (src/core/padding.rs lines 24-31). -/
def Padding.apply [Inhabited P] [Zero P] (padding : Padding P)
    (img : Image2d P) (size : Nat × Nat) : Except String (Image2d P) :=
  match padding with
  | Padding.constant p => pad_constant img size p
  | Padding.replicate => pad_replicate img size
  | Padding.wrap => pad_wrap img size
  | Padding.mirror => pad_mirror img size

/-- A pixel with n channels of subpixel type S: the model of the Luma /
LumaA / Rgb / RgbA family (src/core/pixel_types.rs lines 56-504), indexed by
the channel count N_CHANNELS. -/
structure Pix (n : Nat) (S : Type) where
  data : List S
deriving DecidableEq, Repr

instance : Inhabited (Pix n S) := ⟨⟨[]⟩⟩

/-- Zero::zero for a pixel: every channel zero (pixel_types.rs lines 357-362). -/
instance [Zero S] : Zero (Pix n S) := ⟨⟨List.replicate n 0⟩⟩

/-- Pixel::from_slice on the pixel wrapper (pixel_types.rs lines 426-432). -/
def Pix.from_slice [Zero S] (n : Nat) (s : List S) : Pix n S :=
  ⟨from_slice_list n s⟩

/-- Pixel::set_to_slice on the pixel wrapper (pixel_types.rs lines 434-438). -/
def Pix.set_to_slice (p : Pix n S) (s : List S) : Pix n S :=
  ⟨set_to_slice_list p.data s⟩

/-- num_traits::clamp, ordered by the boolean strict comparison lt. -/
def num_clamp (lt : T → T → Bool) (x lo hi : T) : T :=
  if lt x lo then lo else if lt hi x then hi else x

/-- The provided Pixel::clamp (src/core/traits.rs lines 111-117): the default
implementation maps the clamping closure over the channels and consumes the
resulting iterator with count().  The closure receives each channel by
mutable reference, copies it out, computes the clamped value and discards it;
count() only counts the results, so nothing is ever written back and the
pixel is returned unchanged.  The discarded computation is kept here
verbatim as a dead let binding. -/
def Pixel.clamp (lt : S → S → Bool) (p : Pix n S) (low high : S) : Pix n S :=
  let _discarded := (p.data.map (fun c => num_clamp lt c low high)).length
  p

/-- ImageBuffer2D::from_vec (src/core/image2d.rs lines 381-384):
Array2::from_shape_vec((h, w), v) succeeds exactly when the vector length
matches w * h; the ndarray shape error is the InvalidDimensions failure. -/
def from_vec (w h : Nat) (v : List P) : Except String (Image2d P) :=
  if v.length = w * h then Except.ok ⟨w, h, v⟩
  else Except.error "InvalidDimensions"

/-- ImageBuffer2D::from_raw_vec (src/core/image2d.rs lines 389-399): chunk
the subpixel vector by N_CHANNELS, ensure the number of chunks is w * h,
build each pixel with Pixel::from_slice, then feed the pixel vector to
Array2::from_shape_vec. -/
def from_raw_vec [Zero S] (n w h : Nat) (v : List S) :
    Except String (Image2d (Pix n S)) := do
  let pixels_iter := listChunks n v
  if pixels_iter.length = w * h then
    from_vec w h (pixels_iter.map (fun channels => Pix.from_slice n channels))
  else Except.error "Buffer has incorrect size."

/-- Kernel (src/processing/kernel.rs lines 17-21). -/
structure Kernel (T : Type) where
  elems : List T
  radius : Nat
deriving DecidableEq, Repr

/-- Kernel::new (src/processing/kernel.rs lines 30-41). -/
def Kernel.new (elems : List T) (radius : Nat) : Except String (Kernel T) :=
  if elems.length = (2 * radius + 1) * (2 * radius + 1) then
    Except.ok ⟨elems, radius⟩
  else Except.error "Vector has an incorrect size."

/-- The numeric operations of the convolution's generic (S, T, O) subpixel
triple: NumCast::from casts S into the kernel type T (unwrapped in the
source; all casts modelled here are total), the fallible NumCast::from from
T to O, the Bounded bounds of S and the arithmetic of T. -/
structure ConvNum (S T O : Type) where
  castST : S → T
  castTO : T → Option O
  sMin : S
  sMax : S
  tZero : T
  oZero : O
  tAdd : T → T → T
  tMul : T → T → T
  tLt : T → T → Bool

/-- The per-channel accumulation loop of convolve (kernel.rs lines 71-80):
pix_accu_t is reset to zeros, then for every n-channel chunk of the region
accumulator the channel components are added into pix_accu_t. -/
def sum_chunks (cn : ConvNum S T O) (n : Nat) (region : List T) : List T :=
  (listChunks n region).foldl
    (fun acc chunk =>
      (List.range n).map (fun i => cn.tAdd (acc.getD i cn.tZero) (chunk.getD i cn.tZero)))
    (List.replicate n cn.tZero)

/-- One iteration of the convolve output loop (kernel.rs lines 59-89) at
output coordinate (x, y): build the d-by-d rect at (x, y), crop it to the
un-padded image (kernel.rs line 62), unwrap, zip the rect pixels of the
padded buffer with the kernel elements, flatten the per-pixel per-channel
products into the region accumulator, sum it per channel by n-chunks, clamp
each channel sum between the casts of the source subpixel bounds, cast to the
output subpixel with zero fallback, and build the output pixel with
Po::from_slice. -/
def convolve_pixel [Zero O] (cn : ConvNum S T O) (kern : Kernel T)
    (img padded : Image2d (Pix n S)) (x y : Nat) : Except String (Pix n O) := do
  let d := 2 * kern.radius + 1
  let r0 ← Rect.new x y d d
  let copt ← crop_to_image r0 img
  let rect ← optUnwrap copt
  let region := ((rect_iter_list padded rect).zip kern.elems).flatMap
    (fun pe => pe.1.data.map (fun c => cn.tMul pe.2 (cn.castST c)))
  let accT := sum_chunks cn n region
  let maxT := cn.castST cn.sMax
  let minT := cn.castST cn.sMin
  let accO := (List.range n).map
    (fun i => (cn.castTO (num_clamp cn.tLt (accT.getD i cn.tZero) minT maxT)).getD cn.oZero)
  pure (Pix.from_slice n accO)

/-- Effectful map over a list in the Except monad, the model of a Rust loop
whose body can panic: the first panic aborts the whole loop. -/
def mapExcept (f : α → Except ε β) : List α → Except ε (List β)
  | [] => Except.ok []
  | a :: l => do
    let b ← f a
    let bs ← mapExcept f l
    pure (b :: bs)

/-- Kernel::convolve (src/processing/kernel.rs lines 44-92): apply the
padding with the kernel radius in both directions, then fill an output buffer
of the un-padded dimensions by running convolve_pixel at every output
coordinate in enumerate_pixels_mut row-major order. -/
def Kernel.convolve [Inhabited (Pix n S)] [Zero (Pix n S)] [Zero O]
    (kern : Kernel T) (cn : ConvNum S T O) (img : Image2d (Pix n S))
    (padding : Padding (Pix n S)) : Except String (Image2d (Pix n O)) := do
  let padded ← padding.apply img (kern.radius, kern.radius)
  let data ← mapExcept (fun p => convolve_pixel cn kern img padded p.1 p.2)
    (rowMajor img.width img.height)
  pure ⟨img.width, img.height, data⟩

/-- Kernel::box_ (src/processing/kernel.rs lines 118-123) with the f64
weights idealized as exact rationals: the uniform kernel of weight
1 / (2r+1)^2. -/
def box_ (radius : Nat) : Kernel ℚ :=
  ⟨List.replicate ((2 * radius + 1) * (2 * radius + 1))
    (1 / (((2 * radius + 1) * (2 * radius + 1) : Nat) : ℚ)), radius⟩

/-- Model of num_traits NumCast from f64 (idealized as ℚ) to u8: truncate
toward zero and fail outside the u8 range. -/
def castQtoU8 (q : ℚ) : Option ℕ :=
  let z : ℤ := if q < 0 then -((-q).floor) else q.floor
  if 0 ≤ z ∧ z ≤ 255 then some z.toNat else none

/-- The (S, T, O) = (u8, f64, u8) numeric triple of a convolution of a u8
image into a u8 image with f64 kernel weights, with f64 idealized as ℚ and
the u8 subpixel values carried as Nat. -/
def ctxU8 : ConvNum ℕ ℚ ℕ :=
  ⟨fun c => (c : ℚ), castQtoU8, 0, 255, 0, 0, (· + ·), (· * ·),
   fun a b => decide (a < b)⟩

/-- Model of num_traits NumCast from f64 (idealized as ℚ) to u16. -/
def castQtoU16 (q : ℚ) : Option ℕ :=
  let z : ℤ := if q < 0 then -((-q).floor) else q.floor
  if 0 ≤ z ∧ z ≤ 65535 then some z.toNat else none

/-- The (S, T, O) = (u16, f64, u8) numeric triple: a u16 source image
convolved into a u8 output image.  The clamp bounds are the source (u16)
bounds. -/
def ctxU16toU8 : ConvNum ℕ ℚ ℕ :=
  ⟨fun c => (c : ℚ), castQtoU8, 0, 65535, 0, 0, (· + ·), (· * ·),
   fun a b => decide (a < b)⟩

def img3x3 : Image2d (Pix 1 ℕ) :=
  ⟨3, 3, [⟨[1]⟩, ⟨[2]⟩, ⟨[3]⟩, ⟨[4]⟩, ⟨[5]⟩, ⟨[6]⟩, ⟨[7]⟩, ⟨[8]⟩, ⟨[9]⟩]⟩

/-- The 3-by-3 identity kernel: weight 1 at the center, 0 elsewhere. -/
def idKernel3 : Kernel ℚ := ⟨[0, 0, 0, 0, 1, 0, 0, 0, 0], 1⟩

def imgConst9 : Image2d (Pix 1 ℕ) := ⟨3, 3, List.replicate 9 ⟨[9]⟩⟩

/-- The row [a, b, c, d, e] = [1, 2, 3, 4, 5] of the mirror-padding example,
with a second row so that a radius-2 padding is admissible. -/
def img5x2 : Image2d ℕ := ⟨5, 2, [1, 2, 3, 4, 5, 6, 7, 8, 9, 10]⟩

def img2x2 : Image2d ℕ := ⟨2, 2, [1, 2, 3, 4]⟩

def img4x1 : Image2d ℕ := ⟨4, 1, [1, 2, 3, 4]⟩

def img1x1u16 : Image2d (Pix 1 ℕ) := ⟨1, 1, [⟨[1000]⟩]⟩

/-- The 1-by-1 unit kernel (radius 0). -/
def unitKernel : Kernel ℚ := ⟨[1], 0⟩

/-- The index the code's mirror padding actually reads for output index x of
a padded axis of source length len and padding s: the reflection repeats the
border pixel (source cell s-1-x for the low margin, 2*len+s-1-x for the high
margin). -/
def reflIdx (len s x : Nat) : Nat :=
  if x < s then s - 1 - x else if x < s + len then x - s else 2 * len + s - 1 - x

/-- The value the code computes for pad_mirror img5x2 (2, 2): each row of
the horizontal margins repeats the border pixel ([b, a | a..e | e, d]), and
the vertical margins likewise repeat the border rows. -/
def mirrorPadded5x2 : Image2d ℕ :=
  ⟨9, 6, [7, 6, 6, 7, 8, 9, 10, 10, 9,
          2, 1, 1, 2, 3, 4, 5, 5, 4,
          2, 1, 1, 2, 3, 4, 5, 5, 4,
          7, 6, 6, 7, 8, 9, 10, 10, 9,
          7, 6, 6, 7, 8, 9, 10, 10, 9,
          2, 1, 1, 2, 3, 4, 5, 5, 4]⟩

/-- The value the code computes for pad_wrap img4x1 (1, 1). -/
def wrapPadded4x1 : Image2d ℕ :=
  ⟨6, 3, [4, 1, 2, 3, 4, 1, 4, 1, 2, 3, 4, 1, 4, 1, 2, 3, 4, 1]⟩

/-- The value the code computes for pad_mirror img2x2 (1, 1). -/
def mirrorPadded2x2 : Image2d ℕ :=
  ⟨4, 4, [1, 1, 2, 2, 1, 1, 2, 2, 3, 3, 4, 4, 3, 3, 4, 4]⟩

/-- The value the code computes for pad_replicate img2x2 (3, 3): the padding
size 3 exceeds both dimensions of the 2-by-2 source, yet the call succeeds. -/
def replicatePadded2x2 : Image2d ℕ :=
  ⟨8, 8, [1, 1, 1, 1, 2, 2, 2, 2,
          1, 1, 1, 1, 2, 2, 2, 2,
          1, 1, 1, 1, 2, 2, 2, 2,
          1, 1, 1, 1, 2, 2, 2, 2,
          3, 3, 3, 3, 4, 4, 4, 4,
          3, 3, 3, 3, 4, 4, 4, 4,
          3, 3, 3, 3, 4, 4, 4, 4,
          3, 3, 3, 3, 4, 4, 4, 4]⟩

/-- The value the code computes for the identity-kernel convolution of
img3x3 under constant-0 padding (in place of the expected img3x3 itself). -/
def convIdOut3x3 : Image2d (Pix 1 ℕ) :=
  ⟨3, 3, [⟨[1]⟩, ⟨[4]⟩, ⟨[0]⟩, ⟨[4]⟩, ⟨[0]⟩, ⟨[0]⟩, ⟨[0]⟩, ⟨[0]⟩, ⟨[0]⟩]⟩

/-- The value the code computes for the box_(1) convolution of the constant-9
image imgConst9 under replicate padding (in place of imgConst9 itself). -/
def boxOut3x3 : Image2d (Pix 1 ℕ) :=
  ⟨3, 3, [⟨[9]⟩, ⟨[6]⟩, ⟨[3]⟩, ⟨[6]⟩, ⟨[4]⟩, ⟨[2]⟩, ⟨[3]⟩, ⟨[2]⟩, ⟨[1]⟩]⟩

theorem writeCells_cons (img : Image2d P) (c : Nat × Nat × P) (cs : List (Nat × Nat × P)) :
    writeCells img (c :: cs) = writeCells (put_pixel img c.1 c.2.1 c.2.2) cs := rfl

theorem writeCells_append (img : Image2d P) (l₁ l₂ : List (Nat × Nat × P)) :
    writeCells img (l₁ ++ l₂) = writeCells (writeCells img l₁) l₂ :=
  List.foldl_append _ _ _ _

theorem width_writeCells (img : Image2d P) (cs : List (Nat × Nat × P)) :
    (writeCells img cs).width = img.width := by
  induction cs generalizing img with
  | nil => rfl
  | cons c cs ih => rw [writeCells_cons, ih]; rfl

theorem height_writeCells (img : Image2d P) (cs : List (Nat × Nat × P)) :
    (writeCells img cs).height = img.height := by
  induction cs generalizing img with
  | nil => rfl
  | cons c cs ih => rw [writeCells_cons, ih]; rfl

theorem length_writeCells (img : Image2d P) (cs : List (Nat × Nat × P)) :
    (writeCells img cs).data.length = img.data.length := by
  induction cs generalizing img with
  | nil => rfl
  | cons c cs ih =>
    rw [writeCells_cons, ih]
    simp [put_pixel]

theorem get_put_ne [Inhabited P] (img : Image2d P) (a b x y : Nat) (p : P)
    (h : b * img.width + a ≠ y * img.width + x) :
    get_pixel (put_pixel img a b p) x y = get_pixel img x y := by
  simp only [get_pixel, put_pixel, List.getD_eq_getElem?_getD]
  rw [List.getElem?_set_ne h]

theorem get_put_self [Inhabited P] (img : Image2d P) (a b : Nat) (p : P)
    (h : b * img.width + a < img.data.length) :
    get_pixel (put_pixel img a b p) a b = p := by
  simp only [get_pixel, put_pixel, List.getD_eq_getElem?_getD]
  rw [List.getElem?_set_self h]
  rfl

theorem get_writeCells_miss [Inhabited P] (img : Image2d P) (cs : List (Nat × Nat × P))
    (x y : Nat) (h : ∀ c ∈ cs, c.2.1 * img.width + c.1 ≠ y * img.width + x) :
    get_pixel (writeCells img cs) x y = get_pixel img x y := by
  induction cs generalizing img with
  | nil => rfl
  | cons c cs ih =>
    rw [writeCells_cons]
    rw [ih (put_pixel img c.1 c.2.1 c.2.2)
      (fun c' hc' => h c' (List.mem_cons_of_mem _ hc'))]
    exact get_put_ne img c.1 c.2.1 x y c.2.2 (h c (List.mem_cons_self _ _))

theorem get_writeCells_hit [Inhabited P] (img : Image2d P)
    (l₁ l₂ : List (Nat × Nat × P)) (a b : Nat) (p : P)
    (h₂ : ∀ c ∈ l₂, c.2.1 * img.width + c.1 ≠ b * img.width + a)
    (hlen : b * img.width + a < img.data.length) :
    get_pixel (writeCells img (l₁ ++ (a, b, p) :: l₂)) a b = p := by
  rw [writeCells_append, writeCells_cons]
  have hw : (writeCells img l₁).width = img.width := width_writeCells img l₁
  have hl : (writeCells img l₁).data.length = img.data.length := length_writeCells img l₁
  have hwp : (put_pixel (writeCells img l₁) a b p).width = img.width := hw
  rw [get_writeCells_miss _ _ a b (fun c hc => by rw [hwp]; exact h₂ c hc)]
  rw [show (a, b, p).1 = a from rfl, show (a, b, p).2.1 = b from rfl,
    show (a, b, p).2.2 = p from rfl]
  exact get_put_self _ a b p (by rw [hw, hl]; exact hlen)

theorem rowMajor_mem (w h : Nat) (p : Nat × Nat) :
    p ∈ rowMajor w h ↔ p.1 < w ∧ p.2 < h := by
  constructor
  · intro hp
    simp only [rowMajor, List.mem_flatMap, List.mem_map, List.mem_range] at hp
    obtain ⟨j, hj, i, hi, hij⟩ := hp
    subst hij
    exact ⟨hi, hj⟩
  · intro ⟨h1, h2⟩
    simp only [rowMajor, List.mem_flatMap, List.mem_map, List.mem_range]
    exact ⟨p.2, h2, p.1, h1, rfl⟩

theorem rowMajor_nodup (w h : Nat) : (rowMajor w h).Nodup := by
  induction h with
  | zero => simp [rowMajor]
  | succ h ih =>
    have : rowMajor w (h + 1) =
        rowMajor w h ++ (List.range w).map (fun i => (i, h)) := by
      simp [rowMajor, List.range_succ]
    rw [this, List.nodup_append]
    refine ⟨ih, ?_, ?_⟩
    · exact (List.nodup_range w).map (fun a b hab => by
        simpa using congrArg Prod.fst hab)
    · intro p hp hq
      have h1 := (rowMajor_mem w h p).mp hp
      simp only [List.mem_map, List.mem_range] at hq
      obtain ⟨i, _, hip⟩ := hq
      subst hip
      exact absurd h1.2 (by omega)

theorem rowMajor_length (w h : Nat) : (rowMajor w h).length = w * h := by
  induction h with
  | zero => simp [rowMajor]
  | succ h ih =>
    have : rowMajor w (h + 1) =
        rowMajor w h ++ (List.range w).map (fun i => (i, h)) := by
      simp [rowMajor, List.range_succ]
    rw [this]
    simp only [List.length_append, List.length_map, List.length_range, ih]
    ring

theorem idx_lt (w h a b : Nat) (ha : a < w) (hb : b < h) : b * w + a < w * h := by
  calc b * w + a < b * w + w := by omega
  _ = (b + 1) * w := by ring
  _ ≤ h * w := Nat.mul_le_mul_right w hb
  _ = w * h := Nat.mul_comm h w

theorem idx_ne (w a b x y : Nat) (ha : a < w) (hx : x < w)
    (hne : a ≠ x ∨ b ≠ y) : b * w + a ≠ y * w + x := by
  intro heq
  have h1 : a = x := by
    have h0 : (b * w + a) % w = (y * w + x) % w := by rw [heq]
    rwa [Nat.add_comm (b * w) a, Nat.add_comm (y * w) x,
      Nat.add_mul_mod_self_right, Nat.add_mul_mod_self_right,
      Nat.mod_eq_of_lt ha, Nat.mod_eq_of_lt hx] at h0
  have h2 : b = y := by
    subst h1
    have hw : 0 < w := by omega
    have := Nat.eq_of_mul_eq_mul_right hw (by omega : b * w = y * w)
    exact this
  exact hne.elim (fun hc => hc h1) (fun hc => hc h2)

theorem rowMajor_getD (w h x y : Nat) (hx : x < w) (hy : y < h) (junk : Nat × Nat) :
    (rowMajor w h).getD (y * w + x) junk = (x, y) := by
  induction h with
  | zero => omega
  | succ h ih =>
    have hsplit : rowMajor w (h + 1) =
        rowMajor w h ++ (List.range w).map (fun i => (i, h)) := by
      simp [rowMajor, List.range_succ]
    rw [hsplit]
    by_cases hyh : y < h
    · rw [List.getD_eq_getElem?_getD, List.getElem?_append_left
        (by rw [rowMajor_length]; exact idx_lt w h x y hx hyh),
        ← List.getD_eq_getElem?_getD]
      exact ih hyh
    · have hy' : y = h := by omega
      rw [hy']
      have hlen : (rowMajor w h).length ≤ h * w + x := by
        rw [rowMajor_length, Nat.mul_comm w h]
        omega
      rw [List.getD_eq_getElem?_getD, List.getElem?_append_right hlen, rowMajor_length]
      have hidx : h * w + x - w * h = x := by
        rw [Nat.mul_comm w h]
        omega
      rw [hidx, List.getElem?_map, List.getElem?_range hx]
      rfl

theorem width_mapRectWrite (dst : Image2d P) (W H : Nat) (t : Nat → Nat → Nat × Nat)
    (v : Nat → Nat → P) : (mapRectWrite dst W H t v).width = dst.width :=
  width_writeCells _ _

theorem height_mapRectWrite (dst : Image2d P) (W H : Nat) (t : Nat → Nat → Nat × Nat)
    (v : Nat → Nat → P) : (mapRectWrite dst W H t v).height = dst.height :=
  height_writeCells _ _

theorem length_mapRectWrite (dst : Image2d P) (W H : Nat) (t : Nat → Nat → Nat × Nat)
    (v : Nat → Nat → P) : (mapRectWrite dst W H t v).data.length = dst.data.length :=
  length_writeCells _ _

theorem get_mapRectWrite_miss [Inhabited P] (dst : Image2d P) (W H : Nat)
    (t : Nat → Nat → Nat × Nat) (v : Nat → Nat → P) (x y : Nat)
    (hx : x < dst.width)
    (hin : ∀ i j, i < W → j < H → (t i j).1 < dst.width)
    (hmiss : ∀ i j, i < W → j < H → t i j ≠ (x, y)) :
    get_pixel (mapRectWrite dst W H t v) x y = get_pixel dst x y := by
  apply get_writeCells_miss
  intro c hc
  simp only [List.mem_map] at hc
  obtain ⟨p, hp, hcp⟩ := hc
  obtain ⟨hp1, hp2⟩ := (rowMajor_mem W H p).mp hp
  subst hcp
  have hne : (t p.1 p.2).1 ≠ x ∨ (t p.1 p.2).2 ≠ y := by
    by_contra hcon
    push_neg at hcon
    exact hmiss p.1 p.2 hp1 hp2 (Prod.ext hcon.1 hcon.2)
  exact idx_ne dst.width (t p.1 p.2).1 (t p.1 p.2).2 x y
    (hin p.1 p.2 hp1 hp2) hx hne

theorem get_mapRectWrite_hit [Inhabited P] (dst : Image2d P) (W H : Nat)
    (t : Nat → Nat → Nat × Nat) (v : Nat → Nat → P) (i j : Nat)
    (hi : i < W) (hj : j < H)
    (hwf : dst.data.length = dst.width * dst.height)
    (hin : ∀ a b, a < W → b < H → (t a b).1 < dst.width ∧ (t a b).2 < dst.height)
    (hinj : ∀ a b, a < W → b < H → t a b = t i j → a = i ∧ b = j) :
    get_pixel (mapRectWrite dst W H t v) (t i j).1 (t i j).2 = v i j := by
  have hmem : (i, j) ∈ rowMajor W H := (rowMajor_mem W H (i, j)).mpr ⟨hi, hj⟩
  obtain ⟨l₁, l₂, hsplit⟩ := List.append_of_mem hmem
  have hnd : (rowMajor W H).Nodup := rowMajor_nodup W H
  rw [hsplit] at hnd
  have hnotmem : (i, j) ∉ l₂ :=
    (List.nodup_cons.mp (List.nodup_append.mp hnd).2.1).1
  have hsub : ∀ p ∈ l₂, p ∈ rowMajor W H := by
    intro p hp
    rw [hsplit]
    exact List.mem_append_right _ (List.mem_cons_of_mem _ hp)
  unfold mapRectWrite
  rw [hsplit, List.map_append, List.map_cons]
  apply get_writeCells_hit
  · intro c hc
    simp only [List.mem_map] at hc
    obtain ⟨p, hp, hcp⟩ := hc
    obtain ⟨hp1, hp2⟩ := (rowMajor_mem W H p).mp (hsub p hp)
    subst hcp
    have hpne : p ≠ (i, j) := fun hcon => hnotmem (hcon ▸ hp)
    have htne : t p.1 p.2 ≠ t i j := by
      intro hcon
      obtain ⟨h1, h2⟩ := hinj p.1 p.2 hp1 hp2 hcon
      exact hpne (Prod.ext h1 h2)
    have hne : (t p.1 p.2).1 ≠ (t i j).1 ∨ (t p.1 p.2).2 ≠ (t i j).2 := by
      by_contra hcon
      push_neg at hcon
      exact htne (Prod.ext hcon.1 hcon.2)
    exact idx_ne dst.width _ _ _ _ (hin p.1 p.2 hp1 hp2).1 (hin i j hi hj).1 hne
  · rw [hwf]
    exact idx_lt dst.width dst.height _ _ (hin i j hi hj).1 (hin i j hi hj).2

theorem get_from_elem [Inhabited P] (w h x y : Nat) (val : P)
    (hx : x < w) (hy : y < h) :
    get_pixel (from_elem w h val) x y = val := by
  simp only [get_pixel, from_elem, List.getD_eq_getElem?_getD]
  rw [List.getElem?_replicate_of_lt (idx_lt w h x y hx hy)]
  rfl

theorem ok_bind (a : α) (f : α → Except ε β) : (Except.ok a >>= f) = f a := rfl

theorem Rect.new_ok (x y w h : Nat) (hw : w ≠ 0) (hh : h ≠ 0) :
    Rect.new x y w h = Except.ok ⟨x, y, w, h⟩ := by
  simp [Rect.new, hw, hh]

theorem sub32_ok (a b : Nat) (h : b ≤ a) : sub32 a b = Except.ok (a - b) := by
  simp [sub32, h]

theorem blit_rect_ok [Inhabited P] (dst : Image2d P) (sr dr : Rect) (img : Image2d P)
    (hsz : sr.size = dr.size) (hs : sr.fits_image img) (hd : dr.fits_image dst) :
    blit_rect dst sr dr img = Except.ok (mapRectWrite dst sr.width sr.height
      (fun i j => (dr.left + i, dr.top + j))
      (fun i j => get_pixel img (sr.left + i) (sr.top + j))) := by
  simp [blit_rect, hsz, hs, hd]

theorem sub_image_fill_ok [Inhabited P] (dst : Image2d P) (rect : Rect) (val : P)
    (h1 : rect.right < dst.width) (h2 : rect.bottom < dst.height) :
    sub_image_fill dst rect val = Except.ok (mapRectWrite dst rect.width rect.height
      (fun i j => (rect.left + i, rect.top + j)) (fun _ _ => val)) := by
  simp [sub_image_fill, h1, h2]

theorem sub_image_fill_cols_ok [Inhabited P] (dst : Image2d P) (rect : Rect)
    (vals : List P) (h1 : rect.right < dst.width) (h2 : rect.bottom < dst.height) :
    sub_image_fill_cols dst rect vals =
      Except.ok (mapRectWrite dst (min rect.width vals.length) rect.height
        (fun i j => (rect.left + i, rect.top + j)) (fun i _ => vals.getD i default)) := by
  simp [sub_image_fill_cols, h1, h2]

theorem sub_image_fill_rows_ok [Inhabited P] (dst : Image2d P) (rect : Rect)
    (vals : List P) (h1 : rect.right < dst.width) (h2 : rect.bottom < dst.height) :
    sub_image_fill_rows dst rect vals =
      Except.ok (mapRectWrite dst rect.width (min rect.height vals.length)
        (fun i j => (rect.left + i, rect.top + j)) (fun _ j => vals.getD j default)) := by
  simp [sub_image_fill_rows, h1, h2]

theorem mirror_copy_both_ok [Inhabited P] (padded img : Image2d P) (sr dr : Rect)
    (h1 : sr.right < img.width) (h2 : sr.bottom < img.height)
    (h3 : dr.right < padded.width) (h4 : dr.bottom < padded.height) :
    mirror_copy_both padded img sr dr =
      Except.ok (mapRectWrite padded (min sr.width dr.width) (min sr.height dr.height)
        (fun i j => (dr.left + (dr.width - 1 - i), dr.top + (dr.height - 1 - j)))
        (fun i j => get_pixel img (sr.left + i) (sr.top + j))) := by
  simp [mirror_copy_both, h1, h2, h3, h4]

theorem mirror_copy_hor_ok [Inhabited P] (padded img : Image2d P) (sr dr : Rect)
    (h1 : sr.right < img.width) (h2 : sr.bottom < img.height)
    (h3 : dr.right < padded.width) (h4 : dr.bottom < padded.height) :
    mirror_copy_hor padded img sr dr =
      Except.ok (mapRectWrite padded (min sr.width dr.width) (min sr.height dr.height)
        (fun i j => (dr.left + (dr.width - 1 - i), dr.top + j))
        (fun i j => get_pixel img (sr.left + i) (sr.top + j))) := by
  simp [mirror_copy_hor, h1, h2, h3, h4]

theorem mirror_copy_ver_ok [Inhabited P] (padded img : Image2d P) (sr dr : Rect)
    (h1 : sr.right < img.width) (h2 : sr.bottom < img.height)
    (h3 : dr.right < padded.width) (h4 : dr.bottom < padded.height) :
    mirror_copy_ver padded img sr dr =
      Except.ok (mapRectWrite padded (min sr.width dr.width) (min sr.height dr.height)
        (fun i j => (dr.left + i, dr.top + (dr.height - 1 - j)))
        (fun i j => get_pixel img (sr.left + i) (sr.top + j))) := by
  simp [mirror_copy_ver, h1, h2, h3, h4]

theorem pad_constant_char [Inhabited P] (img : Image2d P) (s : Nat) (val : P)
    (hw : 0 < img.width) (hh : 0 < img.height) :
    ∃ p, pad_constant img (s, s) val = Except.ok p ∧
      p.width = img.width + 2 * s ∧ p.height = img.height + 2 * s ∧
      p.data.length = p.width * p.height ∧
      ∀ x y, x < img.width + 2 * s → y < img.height + 2 * s →
        get_pixel p x y =
          if s ≤ x ∧ x < s + img.width ∧ s ≤ y ∧ y < s + img.height then
            get_pixel img (x - s) (y - s)
          else val := by
  apply Exists.intro
  constructor
  · unfold pad_constant Image2d.rect
    dsimp only
    simp only [Rect.new_ok s s img.width img.height (by omega) (by omega),
      Rect.new_ok 0 0 img.width img.height (by omega) (by omega), ok_bind]
    rw [blit_rect_ok (from_elem (img.width + 2 * s) (img.height + 2 * s) val)
      ⟨0, 0, img.width, img.height⟩ ⟨s, s, img.width, img.height⟩ img rfl
      (⟨by simp only [Rect.right]; omega, by simp only [Rect.bottom]; omega⟩)
      (⟨by simp only [Rect.right, from_elem]; omega,
        by simp only [Rect.bottom, from_elem]; omega⟩)]
  · refine ⟨?_, ?_, ?_, ?_⟩
    · simp [width_mapRectWrite, from_elem]
    · simp [height_mapRectWrite, from_elem]
    · simp [length_mapRectWrite, width_mapRectWrite, height_mapRectWrite, from_elem]
    · intro x y hxb hyb
      by_cases hin : s ≤ x ∧ x < s + img.width ∧ s ≤ y ∧ y < s + img.height
      · rw [if_pos hin]
        have hxy : ((fun i j => ((s : Nat) + i, (s : Nat) + j)) (x - s) (y - s)) = (x, y) := by
          simp only [Prod.mk.injEq]
          omega
        have hmain := get_mapRectWrite_hit
          (from_elem (img.width + 2 * s) (img.height + 2 * s) val)
          img.width img.height (fun i j => (s + i, s + j))
          (fun i j => get_pixel img (0 + i) (0 + j)) (x - s) (y - s)
          (by omega) (by omega)
          (by simp [from_elem])
          (by intro a b hab hbb; simp only [from_elem]; constructor <;> omega)
          (by intro a b hab hbb hteq; simp only [Prod.mk.injEq] at hteq; omega)
        rw [hxy] at hmain
        rw [hmain]
        simp only [Nat.zero_add]
      · rw [if_neg hin]
        rw [get_mapRectWrite_miss
          (from_elem (img.width + 2 * s) (img.height + 2 * s) val)
          img.width img.height (fun i j => (s + i, s + j))
          (fun i j => get_pixel img (0 + i) (0 + j)) x y
          (by simp only [from_elem]; omega)
          (by intro i j hi hj; simp only [from_elem]; omega)
          (by intro i j hi hj heq; simp only [Prod.mk.injEq] at heq; omega)]
        exact get_from_elem _ _ _ _ _ hxb hyb


theorem get_mapRect_fwd [Inhabited P] (dst : Image2d P) (W H dl dt : Nat)
    (v : Nat → Nat → P) (x y : Nat)
    (hx : x < dst.width) (hy : y < dst.height)
    (hwf : dst.data.length = dst.width * dst.height)
    (hW : dl + W ≤ dst.width) (hH : dt + H ≤ dst.height) :
    get_pixel (mapRectWrite dst W H (fun i j => (dl + i, dt + j)) v) x y =
      if dl ≤ x ∧ x < dl + W ∧ dt ≤ y ∧ y < dt + H then v (x - dl) (y - dt)
      else get_pixel dst x y := by
  by_cases hin : dl ≤ x ∧ x < dl + W ∧ dt ≤ y ∧ y < dt + H
  · rw [if_pos hin]
    have hxy : ((fun i j => (dl + i, dt + j)) (x - dl) (y - dt)) = (x, y) := by
      simp only [Prod.mk.injEq]
      omega
    have hmain := get_mapRectWrite_hit dst W H (fun i j => (dl + i, dt + j)) v
      (x - dl) (y - dt) (by omega) (by omega) hwf
      (by intro a b ha hb
          refine ⟨show dl + a < dst.width by omega, show dt + b < dst.height by omega⟩)
      (by intro a b ha hb hteq
          have hteq2 : ((fun i j => (dl + i, dt + j)) a b) = ((fun i j => (dl + i, dt + j)) (x - dl) (y - dt)) := hteq
          rw [hxy, Prod.mk.injEq] at hteq2
          omega)
    rw [hxy] at hmain
    rw [hmain]
  · rw [if_neg hin]
    refine get_mapRectWrite_miss dst W H (fun i j => (dl + i, dt + j)) v x y hx
      (fun a b ha hb => show dl + a < dst.width by omega) ?_
    intro i j hi hj heq
    have heq2 : ((dl + i, dt + j) : Nat × Nat) = (x, y) := heq
    rw [Prod.mk.injEq] at heq2
    omega

theorem get_mapRect_both [Inhabited P] (dst : Image2d P) (W H dl dt : Nat)
    (v : Nat → Nat → P) (x y : Nat)
    (hx : x < dst.width) (hy : y < dst.height)
    (hwf : dst.data.length = dst.width * dst.height)
    (hW : dl + W ≤ dst.width) (hH : dt + H ≤ dst.height) :
    get_pixel (mapRectWrite dst W H (fun i j => (dl + (W - 1 - i), dt + (H - 1 - j))) v) x y =
      if dl ≤ x ∧ x < dl + W ∧ dt ≤ y ∧ y < dt + H then v (dl + W - 1 - x) (dt + H - 1 - y)
      else get_pixel dst x y := by
  by_cases hin : dl ≤ x ∧ x < dl + W ∧ dt ≤ y ∧ y < dt + H
  · rw [if_pos hin]
    have hxy : ((fun i j => (dl + (W - 1 - i), dt + (H - 1 - j))) (dl + W - 1 - x) (dt + H - 1 - y)) = (x, y) := by
      simp only [Prod.mk.injEq]
      omega
    have hmain := get_mapRectWrite_hit dst W H (fun i j => (dl + (W - 1 - i), dt + (H - 1 - j))) v
      (dl + W - 1 - x) (dt + H - 1 - y) (by omega) (by omega) hwf
      (by intro a b ha hb
          refine ⟨show dl + (W - 1 - a) < dst.width by omega, show dt + (H - 1 - b) < dst.height by omega⟩)
      (by intro a b ha hb hteq
          have hteq2 : ((fun i j => (dl + (W - 1 - i), dt + (H - 1 - j))) a b) = ((fun i j => (dl + (W - 1 - i), dt + (H - 1 - j))) (dl + W - 1 - x) (dt + H - 1 - y)) := hteq
          rw [hxy, Prod.mk.injEq] at hteq2
          omega)
    rw [hxy] at hmain
    rw [hmain]
  · rw [if_neg hin]
    refine get_mapRectWrite_miss dst W H (fun i j => (dl + (W - 1 - i), dt + (H - 1 - j))) v x y hx
      (fun a b ha hb => show dl + (W - 1 - a) < dst.width by omega) ?_
    intro i j hi hj heq
    have heq2 : ((dl + (W - 1 - i), dt + (H - 1 - j)) : Nat × Nat) = (x, y) := heq
    rw [Prod.mk.injEq] at heq2
    omega

theorem get_mapRect_hor [Inhabited P] (dst : Image2d P) (W H dl dt : Nat)
    (v : Nat → Nat → P) (x y : Nat)
    (hx : x < dst.width) (hy : y < dst.height)
    (hwf : dst.data.length = dst.width * dst.height)
    (hW : dl + W ≤ dst.width) (hH : dt + H ≤ dst.height) :
    get_pixel (mapRectWrite dst W H (fun i j => (dl + (W - 1 - i), dt + j)) v) x y =
      if dl ≤ x ∧ x < dl + W ∧ dt ≤ y ∧ y < dt + H then v (dl + W - 1 - x) (y - dt)
      else get_pixel dst x y := by
  by_cases hin : dl ≤ x ∧ x < dl + W ∧ dt ≤ y ∧ y < dt + H
  · rw [if_pos hin]
    have hxy : ((fun i j => (dl + (W - 1 - i), dt + j)) (dl + W - 1 - x) (y - dt)) = (x, y) := by
      simp only [Prod.mk.injEq]
      omega
    have hmain := get_mapRectWrite_hit dst W H (fun i j => (dl + (W - 1 - i), dt + j)) v
      (dl + W - 1 - x) (y - dt) (by omega) (by omega) hwf
      (by intro a b ha hb
          refine ⟨show dl + (W - 1 - a) < dst.width by omega, show dt + b < dst.height by omega⟩)
      (by intro a b ha hb hteq
          have hteq2 : ((fun i j => (dl + (W - 1 - i), dt + j)) a b) = ((fun i j => (dl + (W - 1 - i), dt + j)) (dl + W - 1 - x) (y - dt)) := hteq
          rw [hxy, Prod.mk.injEq] at hteq2
          omega)
    rw [hxy] at hmain
    rw [hmain]
  · rw [if_neg hin]
    refine get_mapRectWrite_miss dst W H (fun i j => (dl + (W - 1 - i), dt + j)) v x y hx
      (fun a b ha hb => show dl + (W - 1 - a) < dst.width by omega) ?_
    intro i j hi hj heq
    have heq2 : ((dl + (W - 1 - i), dt + j) : Nat × Nat) = (x, y) := heq
    rw [Prod.mk.injEq] at heq2
    omega

theorem get_mapRect_ver [Inhabited P] (dst : Image2d P) (W H dl dt : Nat)
    (v : Nat → Nat → P) (x y : Nat)
    (hx : x < dst.width) (hy : y < dst.height)
    (hwf : dst.data.length = dst.width * dst.height)
    (hW : dl + W ≤ dst.width) (hH : dt + H ≤ dst.height) :
    get_pixel (mapRectWrite dst W H (fun i j => (dl + i, dt + (H - 1 - j))) v) x y =
      if dl ≤ x ∧ x < dl + W ∧ dt ≤ y ∧ y < dt + H then v (x - dl) (dt + H - 1 - y)
      else get_pixel dst x y := by
  by_cases hin : dl ≤ x ∧ x < dl + W ∧ dt ≤ y ∧ y < dt + H
  · rw [if_pos hin]
    have hxy : ((fun i j => (dl + i, dt + (H - 1 - j))) (x - dl) (dt + H - 1 - y)) = (x, y) := by
      simp only [Prod.mk.injEq]
      omega
    have hmain := get_mapRectWrite_hit dst W H (fun i j => (dl + i, dt + (H - 1 - j))) v
      (x - dl) (dt + H - 1 - y) (by omega) (by omega) hwf
      (by intro a b ha hb
          refine ⟨show dl + a < dst.width by omega, show dt + (H - 1 - b) < dst.height by omega⟩)
      (by intro a b ha hb hteq
          have hteq2 : ((fun i j => (dl + i, dt + (H - 1 - j))) a b) = ((fun i j => (dl + i, dt + (H - 1 - j))) (x - dl) (dt + H - 1 - y)) := hteq
          rw [hxy, Prod.mk.injEq] at hteq2
          omega)
    rw [hxy] at hmain
    rw [hmain]
  · rw [if_neg hin]
    refine get_mapRectWrite_miss dst W H (fun i j => (dl + i, dt + (H - 1 - j))) v x y hx
      (fun a b ha hb => show dl + a < dst.width by omega) ?_
    intro i j hi hj heq
    have heq2 : ((dl + i, dt + (H - 1 - j)) : Nat × Nat) = (x, y) := heq
    rw [Prod.mk.injEq] at heq2
    omega

theorem blit_rect_char [Inhabited P] (dst img : Image2d P)
    (sl st sw sh dl dt : Nat)
    (hsw : 0 < sw) (hsh : 0 < sh)
    (hs1 : sl + sw ≤ img.width) (hs2 : st + sh ≤ img.height)
    (hd1 : dl + sw ≤ dst.width) (hd2 : dt + sh ≤ dst.height)
    (hwf : dst.data.length = dst.width * dst.height) :
    ∃ p, blit_rect dst ⟨sl, st, sw, sh⟩ ⟨dl, dt, sw, sh⟩ img = Except.ok p ∧
      p.width = dst.width ∧ p.height = dst.height ∧
      p.data.length = dst.data.length ∧
      ∀ x y, x < dst.width → y < dst.height →
        get_pixel p x y =
          if dl ≤ x ∧ x < dl + sw ∧ dt ≤ y ∧ y < dt + sh then
            get_pixel img (sl + (x - dl)) (st + (y - dt))
          else get_pixel dst x y := by
  apply Exists.intro
  constructor
  · rw [blit_rect_ok dst ⟨sl, st, sw, sh⟩ ⟨dl, dt, sw, sh⟩ img rfl
      ⟨by simp only [Rect.right]; omega, by simp only [Rect.bottom]; omega⟩
      ⟨by simp only [Rect.right]; omega, by simp only [Rect.bottom]; omega⟩]
  · refine ⟨width_mapRectWrite _ _ _ _ _, height_mapRectWrite _ _ _ _ _,
      length_mapRectWrite _ _ _ _ _, ?_⟩
    intro x y hx hy
    rw [get_mapRect_fwd dst sw sh dl dt
      (fun i j => get_pixel img (sl + i) (st + j)) x y hx hy hwf
      (by omega) (by omega)]

theorem sub_image_fill_char [Inhabited P] (dst : Image2d P) (val : P)
    (dl dt sw sh : Nat)
    (hsw : 0 < sw) (hsh : 0 < sh)
    (hd1 : dl + sw ≤ dst.width) (hd2 : dt + sh ≤ dst.height)
    (hwf : dst.data.length = dst.width * dst.height) :
    ∃ p, sub_image_fill dst ⟨dl, dt, sw, sh⟩ val = Except.ok p ∧
      p.width = dst.width ∧ p.height = dst.height ∧
      p.data.length = dst.data.length ∧
      ∀ x y, x < dst.width → y < dst.height →
        get_pixel p x y =
          if dl ≤ x ∧ x < dl + sw ∧ dt ≤ y ∧ y < dt + sh then val
          else get_pixel dst x y := by
  apply Exists.intro
  constructor
  · rw [sub_image_fill_ok dst ⟨dl, dt, sw, sh⟩ val
      (by simp only [Rect.right]; omega) (by simp only [Rect.bottom]; omega)]
  · refine ⟨width_mapRectWrite _ _ _ _ _, height_mapRectWrite _ _ _ _ _,
      length_mapRectWrite _ _ _ _ _, ?_⟩
    intro x y hx hy
    rw [get_mapRect_fwd dst sw sh dl dt (fun _ _ => val) x y hx hy hwf
      (by omega) (by omega)]

theorem sub_image_fill_cols_char [Inhabited P] (dst : Image2d P) (vals : List P)
    (dl dt sw sh : Nat)
    (hsw : 0 < sw) (hsh : 0 < sh) (hvals : vals.length = sw)
    (hd1 : dl + sw ≤ dst.width) (hd2 : dt + sh ≤ dst.height)
    (hwf : dst.data.length = dst.width * dst.height) :
    ∃ p, sub_image_fill_cols dst ⟨dl, dt, sw, sh⟩ vals = Except.ok p ∧
      p.width = dst.width ∧ p.height = dst.height ∧
      p.data.length = dst.data.length ∧
      ∀ x y, x < dst.width → y < dst.height →
        get_pixel p x y =
          if dl ≤ x ∧ x < dl + sw ∧ dt ≤ y ∧ y < dt + sh then
            vals.getD (x - dl) default
          else get_pixel dst x y := by
  apply Exists.intro
  constructor
  · have hok := sub_image_fill_cols_ok dst ⟨dl, dt, sw, sh⟩ vals
      (by simp only [Rect.right]; omega) (by simp only [Rect.bottom]; omega)
    rw [hvals, show min (Rect.width ⟨dl, dt, sw, sh⟩) sw = sw from Nat.min_self sw] at hok
    exact hok
  · refine ⟨width_mapRectWrite _ _ _ _ _, height_mapRectWrite _ _ _ _ _,
      length_mapRectWrite _ _ _ _ _, ?_⟩
    intro x y hx hy
    rw [get_mapRect_fwd dst sw sh dl dt (fun i _ => vals.getD i default) x y hx hy hwf
      (by omega) (by omega)]

theorem sub_image_fill_rows_char [Inhabited P] (dst : Image2d P) (vals : List P)
    (dl dt sw sh : Nat)
    (hsw : 0 < sw) (hsh : 0 < sh) (hvals : vals.length = sh)
    (hd1 : dl + sw ≤ dst.width) (hd2 : dt + sh ≤ dst.height)
    (hwf : dst.data.length = dst.width * dst.height) :
    ∃ p, sub_image_fill_rows dst ⟨dl, dt, sw, sh⟩ vals = Except.ok p ∧
      p.width = dst.width ∧ p.height = dst.height ∧
      p.data.length = dst.data.length ∧
      ∀ x y, x < dst.width → y < dst.height →
        get_pixel p x y =
          if dl ≤ x ∧ x < dl + sw ∧ dt ≤ y ∧ y < dt + sh then
            vals.getD (y - dt) default
          else get_pixel dst x y := by
  apply Exists.intro
  constructor
  · have hok := sub_image_fill_rows_ok dst ⟨dl, dt, sw, sh⟩ vals
      (by simp only [Rect.right]; omega) (by simp only [Rect.bottom]; omega)
    rw [hvals, show min (Rect.height ⟨dl, dt, sw, sh⟩) sh = sh from Nat.min_self sh] at hok
    exact hok
  · refine ⟨width_mapRectWrite _ _ _ _ _, height_mapRectWrite _ _ _ _ _,
      length_mapRectWrite _ _ _ _ _, ?_⟩
    intro x y hx hy
    rw [get_mapRect_fwd dst sw sh dl dt (fun _ j => vals.getD j default) x y hx hy hwf
      (by omega) (by omega)]

theorem mirror_copy_both_char [Inhabited P] (padded img : Image2d P)
    (sl st sw sh dl dt : Nat)
    (hsw : 0 < sw) (hsh : 0 < sh)
    (hs1 : sl + sw ≤ img.width) (hs2 : st + sh ≤ img.height)
    (hd1 : dl + sw ≤ padded.width) (hd2 : dt + sh ≤ padded.height)
    (hwf : padded.data.length = padded.width * padded.height) :
    ∃ p, mirror_copy_both padded img ⟨sl, st, sw, sh⟩ ⟨dl, dt, sw, sh⟩ = Except.ok p ∧
      p.width = padded.width ∧ p.height = padded.height ∧
      p.data.length = padded.data.length ∧
      ∀ x y, x < padded.width → y < padded.height →
        get_pixel p x y =
          if dl ≤ x ∧ x < dl + sw ∧ dt ≤ y ∧ y < dt + sh then
            get_pixel img (sl + (dl + sw - 1 - x)) (st + (dt + sh - 1 - y))
          else get_pixel padded x y := by
  apply Exists.intro
  constructor
  · have hok := mirror_copy_both_ok padded img ⟨sl, st, sw, sh⟩ ⟨dl, dt, sw, sh⟩
      (by simp only [Rect.right]; omega) (by simp only [Rect.bottom]; omega)
      (by simp only [Rect.right]; omega) (by simp only [Rect.bottom]; omega)
    rw [show min (Rect.width ⟨sl, st, sw, sh⟩) (Rect.width ⟨dl, dt, sw, sh⟩) = sw
        from Nat.min_self sw,
      show min (Rect.height ⟨sl, st, sw, sh⟩) (Rect.height ⟨dl, dt, sw, sh⟩) = sh
        from Nat.min_self sh] at hok
    exact hok
  · refine ⟨width_mapRectWrite _ _ _ _ _, height_mapRectWrite _ _ _ _ _,
      length_mapRectWrite _ _ _ _ _, ?_⟩
    intro x y hx hy
    rw [get_mapRect_both padded sw sh dl dt
      (fun i j => get_pixel img (sl + i) (st + j)) x y hx hy hwf
      (by omega) (by omega)]

theorem mirror_copy_hor_char [Inhabited P] (padded img : Image2d P)
    (sl st sw sh dl dt : Nat)
    (hsw : 0 < sw) (hsh : 0 < sh)
    (hs1 : sl + sw ≤ img.width) (hs2 : st + sh ≤ img.height)
    (hd1 : dl + sw ≤ padded.width) (hd2 : dt + sh ≤ padded.height)
    (hwf : padded.data.length = padded.width * padded.height) :
    ∃ p, mirror_copy_hor padded img ⟨sl, st, sw, sh⟩ ⟨dl, dt, sw, sh⟩ = Except.ok p ∧
      p.width = padded.width ∧ p.height = padded.height ∧
      p.data.length = padded.data.length ∧
      ∀ x y, x < padded.width → y < padded.height →
        get_pixel p x y =
          if dl ≤ x ∧ x < dl + sw ∧ dt ≤ y ∧ y < dt + sh then
            get_pixel img (sl + (dl + sw - 1 - x)) (st + (y - dt))
          else get_pixel padded x y := by
  apply Exists.intro
  constructor
  · have hok := mirror_copy_hor_ok padded img ⟨sl, st, sw, sh⟩ ⟨dl, dt, sw, sh⟩
      (by simp only [Rect.right]; omega) (by simp only [Rect.bottom]; omega)
      (by simp only [Rect.right]; omega) (by simp only [Rect.bottom]; omega)
    rw [show min (Rect.width ⟨sl, st, sw, sh⟩) (Rect.width ⟨dl, dt, sw, sh⟩) = sw
        from Nat.min_self sw,
      show min (Rect.height ⟨sl, st, sw, sh⟩) (Rect.height ⟨dl, dt, sw, sh⟩) = sh
        from Nat.min_self sh] at hok
    exact hok
  · refine ⟨width_mapRectWrite _ _ _ _ _, height_mapRectWrite _ _ _ _ _,
      length_mapRectWrite _ _ _ _ _, ?_⟩
    intro x y hx hy
    rw [get_mapRect_hor padded sw sh dl dt
      (fun i j => get_pixel img (sl + i) (st + j)) x y hx hy hwf
      (by omega) (by omega)]

theorem mirror_copy_ver_char [Inhabited P] (padded img : Image2d P)
    (sl st sw sh dl dt : Nat)
    (hsw : 0 < sw) (hsh : 0 < sh)
    (hs1 : sl + sw ≤ img.width) (hs2 : st + sh ≤ img.height)
    (hd1 : dl + sw ≤ padded.width) (hd2 : dt + sh ≤ padded.height)
    (hwf : padded.data.length = padded.width * padded.height) :
    ∃ p, mirror_copy_ver padded img ⟨sl, st, sw, sh⟩ ⟨dl, dt, sw, sh⟩ = Except.ok p ∧
      p.width = padded.width ∧ p.height = padded.height ∧
      p.data.length = padded.data.length ∧
      ∀ x y, x < padded.width → y < padded.height →
        get_pixel p x y =
          if dl ≤ x ∧ x < dl + sw ∧ dt ≤ y ∧ y < dt + sh then
            get_pixel img (sl + (x - dl)) (st + (dt + sh - 1 - y))
          else get_pixel padded x y := by
  apply Exists.intro
  constructor
  · have hok := mirror_copy_ver_ok padded img ⟨sl, st, sw, sh⟩ ⟨dl, dt, sw, sh⟩
      (by simp only [Rect.right]; omega) (by simp only [Rect.bottom]; omega)
      (by simp only [Rect.right]; omega) (by simp only [Rect.bottom]; omega)
    rw [show min (Rect.width ⟨sl, st, sw, sh⟩) (Rect.width ⟨dl, dt, sw, sh⟩) = sw
        from Nat.min_self sw,
      show min (Rect.height ⟨sl, st, sw, sh⟩) (Rect.height ⟨dl, dt, sw, sh⟩) = sh
        from Nat.min_self sh] at hok
    exact hok
  · refine ⟨width_mapRectWrite _ _ _ _ _, height_mapRectWrite _ _ _ _ _,
      length_mapRectWrite _ _ _ _ _, ?_⟩
    intro x y hx hy
    rw [get_mapRect_ver padded sw sh dl dt
      (fun i j => get_pixel img (sl + i) (st + j)) x y hx hy hwf
      (by omega) (by omega)]

theorem get_pixel_congr [Inhabited P] (img : Image2d P) {a b c d : Nat}
    (h1 : a = c) (h2 : b = d) : get_pixel img a b = get_pixel img c d := by
  rw [h1, h2]

theorem wrap_mod (len s x : Nat) (hs : 1 ≤ s) (hsl : s ≤ len) (hx : x < len + 2 * s) :
    (x + len - s) % len =
      if x < s then len - s + x else if x < s + len then x - s else x - s - len := by
  by_cases h1 : x < s
  · rw [if_pos h1, Nat.mod_eq_of_lt (by omega)]
    omega
  · rw [if_neg h1]
    by_cases h2 : x < s + len
    · rw [if_pos h2, Nat.mod_eq_sub_mod (by omega), Nat.mod_eq_of_lt (by omega)]
      omega
    · rw [if_neg h2, Nat.mod_eq_sub_mod (by omega), Nat.mod_eq_sub_mod (by omega),
        Nat.mod_eq_of_lt (by omega)]
      omega

set_option maxHeartbeats 2000000 in
theorem pad_wrap_char [Inhabited P] [Zero P] (img : Image2d P) (s : Nat)
    (hs : 1 ≤ s) (hsw : s ≤ img.width) (hsh : s ≤ img.height) :
    ∃ p, pad_wrap img (s, s) = Except.ok p ∧
      p.width = img.width + 2 * s ∧ p.height = img.height + 2 * s ∧
      ∀ x y, x < img.width + 2 * s → y < img.height + 2 * s →
        get_pixel p x y =
          get_pixel img ((x + img.width - s) % img.width)
            ((y + img.height - s) % img.height) := by
  obtain ⟨q0, h0, haW0, haH0, hwf0, hg0⟩ :=
    pad_constant_char img s (0 : P) (by omega) (by omega)
  obtain ⟨q1, h1, hw1, hh1, hl1, hg1⟩ :=
    blit_rect_char q0 img (0) (0) (s) (s) (img.width + s) (img.height + s)
      (by omega) (by omega) (by omega) (by omega)
      (by rw [haW0]; omega) (by rw [haH0]; omega) hwf0
  have haW1 : q1.width = img.width + 2 * s := hw1.trans haW0
  have haH1 : q1.height = img.height + 2 * s := hh1.trans haH0
  have hwf1 : q1.data.length = q1.width * q1.height := by
    rw [hl1, hwf0, hw1, hh1]
  obtain ⟨q2, h2, hw2, hh2, hl2, hg2⟩ :=
    blit_rect_char q1 img (img.width - s) (0) (s) (s) (0) (img.height + s)
      (by omega) (by omega) (by omega) (by omega)
      (by rw [haW1]; omega) (by rw [haH1]; omega) hwf1
  have haW2 : q2.width = img.width + 2 * s := hw2.trans haW1
  have haH2 : q2.height = img.height + 2 * s := hh2.trans haH1
  have hwf2 : q2.data.length = q2.width * q2.height := by
    rw [hl2, hwf1, hw2, hh2]
  obtain ⟨q3, h3, hw3, hh3, hl3, hg3⟩ :=
    blit_rect_char q2 img (0) (img.height - s) (s) (s) (img.width + s) (0)
      (by omega) (by omega) (by omega) (by omega)
      (by rw [haW2]; omega) (by rw [haH2]; omega) hwf2
  have haW3 : q3.width = img.width + 2 * s := hw3.trans haW2
  have haH3 : q3.height = img.height + 2 * s := hh3.trans haH2
  have hwf3 : q3.data.length = q3.width * q3.height := by
    rw [hl3, hwf2, hw3, hh3]
  obtain ⟨q4, h4, hw4, hh4, hl4, hg4⟩ :=
    blit_rect_char q3 img (img.width - s) (img.height - s) (s) (s) (0) (0)
      (by omega) (by omega) (by omega) (by omega)
      (by rw [haW3]; omega) (by rw [haH3]; omega) hwf3
  have haW4 : q4.width = img.width + 2 * s := hw4.trans haW3
  have haH4 : q4.height = img.height + 2 * s := hh4.trans haH3
  have hwf4 : q4.data.length = q4.width * q4.height := by
    rw [hl4, hwf3, hw4, hh4]
  obtain ⟨q5, h5, hw5, hh5, hl5, hg5⟩ :=
    blit_rect_char q4 img (0) (0) (img.width) (s) (s) (img.height + s)
      (by omega) (by omega) (by omega) (by omega)
      (by rw [haW4]; omega) (by rw [haH4]; omega) hwf4
  have haW5 : q5.width = img.width + 2 * s := hw5.trans haW4
  have haH5 : q5.height = img.height + 2 * s := hh5.trans haH4
  have hwf5 : q5.data.length = q5.width * q5.height := by
    rw [hl5, hwf4, hw5, hh5]
  obtain ⟨q6, h6, hw6, hh6, hl6, hg6⟩ :=
    blit_rect_char q5 img (0) (0) (s) (img.height) (img.width + s) (s)
      (by omega) (by omega) (by omega) (by omega)
      (by rw [haW5]; omega) (by rw [haH5]; omega) hwf5
  have haW6 : q6.width = img.width + 2 * s := hw6.trans haW5
  have haH6 : q6.height = img.height + 2 * s := hh6.trans haH5
  have hwf6 : q6.data.length = q6.width * q6.height := by
    rw [hl6, hwf5, hw6, hh6]
  obtain ⟨q7, h7, hw7, hh7, hl7, hg7⟩ :=
    blit_rect_char q6 img (img.width - s) (0) (s) (img.height) (0) (s)
      (by omega) (by omega) (by omega) (by omega)
      (by rw [haW6]; omega) (by rw [haH6]; omega) hwf6
  have haW7 : q7.width = img.width + 2 * s := hw7.trans haW6
  have haH7 : q7.height = img.height + 2 * s := hh7.trans haH6
  have hwf7 : q7.data.length = q7.width * q7.height := by
    rw [hl7, hwf6, hw7, hh7]
  obtain ⟨q8, h8, hw8, hh8, hl8, hg8⟩ :=
    blit_rect_char q7 img (0) (img.height - s) (img.width) (s) (s) (0)
      (by omega) (by omega) (by omega) (by omega)
      (by rw [haW7]; omega) (by rw [haH7]; omega) hwf7
  have haW8 : q8.width = img.width + 2 * s := hw8.trans haW7
  have haH8 : q8.height = img.height + 2 * s := hh8.trans haH7
  have hwf8 : q8.data.length = q8.width * q8.height := by
    rw [hl8, hwf7, hw8, hh8]
  have hns : s ≠ 0 := by omega
  have hnw : img.width ≠ 0 := by omega
  have hnh : img.height ≠ 0 := by omega
  have hrun : pad_wrap img (s, s) = Except.ok q8 := by
    unfold pad_wrap pad_zeros
    dsimp only
    simp only [h0, ok_bind,
      Rect.new_ok 0 0 s s hns hns,
      Rect.new_ok (img.width + s) (img.height + s) s s hns hns,
      h1,
      sub32_ok img.width s hsw, sub32_ok img.height s hsh,
      Rect.new_ok (img.width - s) 0 s s hns hns,
      Rect.new_ok 0 (img.height + s) s s hns hns,
      h2,
      Rect.new_ok 0 (img.height - s) s s hns hns,
      Rect.new_ok (img.width + s) 0 s s hns hns,
      h3,
      Rect.new_ok (img.width - s) (img.height - s) s s hns hns,
      h4,
      Rect.new_ok 0 0 img.width s hnw hns,
      Rect.new_ok s (img.height + s) img.width s hnw hns,
      h5,
      Rect.new_ok 0 0 s img.height hns hnh,
      Rect.new_ok (img.width + s) s s img.height hns hnh,
      h6,
      Rect.new_ok (img.width - s) 0 s img.height hns hnh,
      Rect.new_ok 0 s s img.height hns hnh,
      h7,
      Rect.new_ok 0 (img.height - s) img.width s hnw hns,
      Rect.new_ok s 0 img.width s hnw hns,
      h8]
  refine ⟨q8, hrun, haW8, haH8, ?_⟩
  intro x y hxb hyb
  have hbx0 : x < q0.width := by rw [haW0]; omega
  have hby0 : y < q0.height := by rw [haH0]; omega
  have hbx1 : x < q1.width := by rw [haW1]; omega
  have hby1 : y < q1.height := by rw [haH1]; omega
  have hbx2 : x < q2.width := by rw [haW2]; omega
  have hby2 : y < q2.height := by rw [haH2]; omega
  have hbx3 : x < q3.width := by rw [haW3]; omega
  have hby3 : y < q3.height := by rw [haH3]; omega
  have hbx4 : x < q4.width := by rw [haW4]; omega
  have hby4 : y < q4.height := by rw [haH4]; omega
  have hbx5 : x < q5.width := by rw [haW5]; omega
  have hby5 : y < q5.height := by rw [haH5]; omega
  have hbx6 : x < q6.width := by rw [haW6]; omega
  have hby6 : y < q6.height := by rw [haH6]; omega
  have hbx7 : x < q7.width := by rw [haW7]; omega
  have hby7 : y < q7.height := by rw [haH7]; omega
  rcases Nat.lt_or_ge x s with hxA | hxA
  · rcases Nat.lt_or_ge y s with hyA | hyA
    · -- top-left corner of the margin
      rw [hg8 x y hbx7 hby7,
        if_neg (show ¬(s ≤ x ∧ x < s + img.width ∧ 0 ≤ y ∧ y < 0 + s) by omega),
        hg7 x y hbx6 hby6,
        if_neg (show ¬(0 ≤ x ∧ x < 0 + s ∧ s ≤ y ∧ y < s + img.height) by omega),
        hg6 x y hbx5 hby5,
        if_neg (show ¬(img.width + s ≤ x ∧ x < img.width + s + s ∧ s ≤ y ∧ y < s + img.height) by omega),
        hg5 x y hbx4 hby4,
        if_neg (show ¬(s ≤ x ∧ x < s + img.width ∧ img.height + s ≤ y ∧ y < img.height + s + s) by omega),
        hg4 x y hbx3 hby3,
        if_pos (show 0 ≤ x ∧ x < 0 + s ∧ 0 ≤ y ∧ y < 0 + s by omega),
        wrap_mod img.width s x hs hsw hxb,
        wrap_mod img.height s y hs hsh hyb,
        if_pos (show x < s by omega),
        if_pos (show y < s by omega)]
      all_goals exact get_pixel_congr img (by omega) (by omega)
    · rcases Nat.lt_or_ge y (s + img.height) with hyB | hyB
      · -- left margin strip
        rw [hg8 x y hbx7 hby7,
          if_neg (show ¬(s ≤ x ∧ x < s + img.width ∧ 0 ≤ y ∧ y < 0 + s) by omega),
          hg7 x y hbx6 hby6,
          if_pos (show 0 ≤ x ∧ x < 0 + s ∧ s ≤ y ∧ y < s + img.height by omega),
          wrap_mod img.width s x hs hsw hxb,
          wrap_mod img.height s y hs hsh hyb,
          if_pos (show x < s by omega),
          if_neg (show ¬(y < s) by omega),
          if_pos (show y < s + img.height by omega)]
        all_goals exact get_pixel_congr img (by omega) (by omega)
      · -- bottom-left corner of the margin
        rw [hg8 x y hbx7 hby7,
          if_neg (show ¬(s ≤ x ∧ x < s + img.width ∧ 0 ≤ y ∧ y < 0 + s) by omega),
          hg7 x y hbx6 hby6,
          if_neg (show ¬(0 ≤ x ∧ x < 0 + s ∧ s ≤ y ∧ y < s + img.height) by omega),
          hg6 x y hbx5 hby5,
          if_neg (show ¬(img.width + s ≤ x ∧ x < img.width + s + s ∧ s ≤ y ∧ y < s + img.height) by omega),
          hg5 x y hbx4 hby4,
          if_neg (show ¬(s ≤ x ∧ x < s + img.width ∧ img.height + s ≤ y ∧ y < img.height + s + s) by omega),
          hg4 x y hbx3 hby3,
          if_neg (show ¬(0 ≤ x ∧ x < 0 + s ∧ 0 ≤ y ∧ y < 0 + s) by omega),
          hg3 x y hbx2 hby2,
          if_neg (show ¬(img.width + s ≤ x ∧ x < img.width + s + s ∧ 0 ≤ y ∧ y < 0 + s) by omega),
          hg2 x y hbx1 hby1,
          if_pos (show 0 ≤ x ∧ x < 0 + s ∧ img.height + s ≤ y ∧ y < img.height + s + s by omega),
          wrap_mod img.width s x hs hsw hxb,
          wrap_mod img.height s y hs hsh hyb,
          if_pos (show x < s by omega),
          if_neg (show ¬(y < s) by omega),
          if_neg (show ¬(y < s + img.height) by omega)]
        all_goals exact get_pixel_congr img (by omega) (by omega)
  · rcases Nat.lt_or_ge x (s + img.width) with hxB | hxB
    · rcases Nat.lt_or_ge y s with hyA | hyA
      · -- top margin strip
        rw [hg8 x y hbx7 hby7,
          if_pos (show s ≤ x ∧ x < s + img.width ∧ 0 ≤ y ∧ y < 0 + s by omega),
          wrap_mod img.width s x hs hsw hxb,
          wrap_mod img.height s y hs hsh hyb,
          if_neg (show ¬(x < s) by omega),
          if_pos (show x < s + img.width by omega),
          if_pos (show y < s by omega)]
        all_goals exact get_pixel_congr img (by omega) (by omega)
      · rcases Nat.lt_or_ge y (s + img.height) with hyB | hyB
        · -- interior
          rw [hg8 x y hbx7 hby7,
            if_neg (show ¬(s ≤ x ∧ x < s + img.width ∧ 0 ≤ y ∧ y < 0 + s) by omega),
            hg7 x y hbx6 hby6,
            if_neg (show ¬(0 ≤ x ∧ x < 0 + s ∧ s ≤ y ∧ y < s + img.height) by omega),
            hg6 x y hbx5 hby5,
            if_neg (show ¬(img.width + s ≤ x ∧ x < img.width + s + s ∧ s ≤ y ∧ y < s + img.height) by omega),
            hg5 x y hbx4 hby4,
            if_neg (show ¬(s ≤ x ∧ x < s + img.width ∧ img.height + s ≤ y ∧ y < img.height + s + s) by omega),
            hg4 x y hbx3 hby3,
            if_neg (show ¬(0 ≤ x ∧ x < 0 + s ∧ 0 ≤ y ∧ y < 0 + s) by omega),
            hg3 x y hbx2 hby2,
            if_neg (show ¬(img.width + s ≤ x ∧ x < img.width + s + s ∧ 0 ≤ y ∧ y < 0 + s) by omega),
            hg2 x y hbx1 hby1,
            if_neg (show ¬(0 ≤ x ∧ x < 0 + s ∧ img.height + s ≤ y ∧ y < img.height + s + s) by omega),
            hg1 x y hbx0 hby0,
            if_neg (show ¬(img.width + s ≤ x ∧ x < img.width + s + s ∧ img.height + s ≤ y ∧ y < img.height + s + s) by omega),
            hg0 x y hxb hyb,
            if_pos (show s ≤ x ∧ x < s + img.width ∧ s ≤ y ∧ y < s + img.height by omega),
            wrap_mod img.width s x hs hsw hxb,
            wrap_mod img.height s y hs hsh hyb,
            if_neg (show ¬(x < s) by omega),
            if_pos (show x < s + img.width by omega),
            if_neg (show ¬(y < s) by omega),
            if_pos (show y < s + img.height by omega)]
          all_goals exact get_pixel_congr img (by omega) (by omega)
        · -- bottom margin strip
          rw [hg8 x y hbx7 hby7,
            if_neg (show ¬(s ≤ x ∧ x < s + img.width ∧ 0 ≤ y ∧ y < 0 + s) by omega),
            hg7 x y hbx6 hby6,
            if_neg (show ¬(0 ≤ x ∧ x < 0 + s ∧ s ≤ y ∧ y < s + img.height) by omega),
            hg6 x y hbx5 hby5,
            if_neg (show ¬(img.width + s ≤ x ∧ x < img.width + s + s ∧ s ≤ y ∧ y < s + img.height) by omega),
            hg5 x y hbx4 hby4,
            if_pos (show s ≤ x ∧ x < s + img.width ∧ img.height + s ≤ y ∧ y < img.height + s + s by omega),
            wrap_mod img.width s x hs hsw hxb,
            wrap_mod img.height s y hs hsh hyb,
            if_neg (show ¬(x < s) by omega),
            if_pos (show x < s + img.width by omega),
            if_neg (show ¬(y < s) by omega),
            if_neg (show ¬(y < s + img.height) by omega)]
          all_goals exact get_pixel_congr img (by omega) (by omega)
    · rcases Nat.lt_or_ge y s with hyA | hyA
      · -- top-right corner of the margin
        rw [hg8 x y hbx7 hby7,
          if_neg (show ¬(s ≤ x ∧ x < s + img.width ∧ 0 ≤ y ∧ y < 0 + s) by omega),
          hg7 x y hbx6 hby6,
          if_neg (show ¬(0 ≤ x ∧ x < 0 + s ∧ s ≤ y ∧ y < s + img.height) by omega),
          hg6 x y hbx5 hby5,
          if_neg (show ¬(img.width + s ≤ x ∧ x < img.width + s + s ∧ s ≤ y ∧ y < s + img.height) by omega),
          hg5 x y hbx4 hby4,
          if_neg (show ¬(s ≤ x ∧ x < s + img.width ∧ img.height + s ≤ y ∧ y < img.height + s + s) by omega),
          hg4 x y hbx3 hby3,
          if_neg (show ¬(0 ≤ x ∧ x < 0 + s ∧ 0 ≤ y ∧ y < 0 + s) by omega),
          hg3 x y hbx2 hby2,
          if_pos (show img.width + s ≤ x ∧ x < img.width + s + s ∧ 0 ≤ y ∧ y < 0 + s by omega),
          wrap_mod img.width s x hs hsw hxb,
          wrap_mod img.height s y hs hsh hyb,
          if_neg (show ¬(x < s) by omega),
          if_neg (show ¬(x < s + img.width) by omega),
          if_pos (show y < s by omega)]
        all_goals exact get_pixel_congr img (by omega) (by omega)
      · rcases Nat.lt_or_ge y (s + img.height) with hyB | hyB
        · -- right margin strip
          rw [hg8 x y hbx7 hby7,
            if_neg (show ¬(s ≤ x ∧ x < s + img.width ∧ 0 ≤ y ∧ y < 0 + s) by omega),
            hg7 x y hbx6 hby6,
            if_neg (show ¬(0 ≤ x ∧ x < 0 + s ∧ s ≤ y ∧ y < s + img.height) by omega),
            hg6 x y hbx5 hby5,
            if_pos (show img.width + s ≤ x ∧ x < img.width + s + s ∧ s ≤ y ∧ y < s + img.height by omega),
            wrap_mod img.width s x hs hsw hxb,
            wrap_mod img.height s y hs hsh hyb,
            if_neg (show ¬(x < s) by omega),
            if_neg (show ¬(x < s + img.width) by omega),
            if_neg (show ¬(y < s) by omega),
            if_pos (show y < s + img.height by omega)]
          all_goals exact get_pixel_congr img (by omega) (by omega)
        · -- bottom-right corner of the margin
          rw [hg8 x y hbx7 hby7,
            if_neg (show ¬(s ≤ x ∧ x < s + img.width ∧ 0 ≤ y ∧ y < 0 + s) by omega),
            hg7 x y hbx6 hby6,
            if_neg (show ¬(0 ≤ x ∧ x < 0 + s ∧ s ≤ y ∧ y < s + img.height) by omega),
            hg6 x y hbx5 hby5,
            if_neg (show ¬(img.width + s ≤ x ∧ x < img.width + s + s ∧ s ≤ y ∧ y < s + img.height) by omega),
            hg5 x y hbx4 hby4,
            if_neg (show ¬(s ≤ x ∧ x < s + img.width ∧ img.height + s ≤ y ∧ y < img.height + s + s) by omega),
            hg4 x y hbx3 hby3,
            if_neg (show ¬(0 ≤ x ∧ x < 0 + s ∧ 0 ≤ y ∧ y < 0 + s) by omega),
            hg3 x y hbx2 hby2,
            if_neg (show ¬(img.width + s ≤ x ∧ x < img.width + s + s ∧ 0 ≤ y ∧ y < 0 + s) by omega),
            hg2 x y hbx1 hby1,
            if_neg (show ¬(0 ≤ x ∧ x < 0 + s ∧ img.height + s ≤ y ∧ y < img.height + s + s) by omega),
            hg1 x y hbx0 hby0,
            if_pos (show img.width + s ≤ x ∧ x < img.width + s + s ∧ img.height + s ≤ y ∧ y < img.height + s + s by omega),
            wrap_mod img.width s x hs hsw hxb,
            wrap_mod img.height s y hs hsh hyb,
            if_neg (show ¬(x < s) by omega),
            if_neg (show ¬(x < s + img.width) by omega),
            if_neg (show ¬(y < s) by omega),
            if_neg (show ¬(y < s + img.height) by omega)]
          all_goals exact get_pixel_congr img (by omega) (by omega)

set_option maxHeartbeats 2000000 in
theorem pad_mirror_char [Inhabited P] [Zero P] (img : Image2d P) (s : Nat)
    (hs : 1 ≤ s) (hsw : s ≤ img.width) (hsh : s ≤ img.height) :
    ∃ p, pad_mirror img (s, s) = Except.ok p ∧
      p.width = img.width + 2 * s ∧ p.height = img.height + 2 * s ∧
      ∀ x y, x < img.width + 2 * s → y < img.height + 2 * s →
        get_pixel p x y =
          get_pixel img (reflIdx img.width s x) (reflIdx img.height s y) := by
  obtain ⟨q0, h0, haW0, haH0, hwf0, hg0⟩ :=
    pad_constant_char img s (0 : P) (by omega) (by omega)
  obtain ⟨q1, h1, hw1, hh1, hl1, hg1⟩ :=
    mirror_copy_both_char q0 img (0) (0) (s) (s) (0) (0)
      (by omega) (by omega) (by omega) (by omega)
      (by rw [haW0]; omega) (by rw [haH0]; omega) hwf0
  have haW1 : q1.width = img.width + 2 * s := hw1.trans haW0
  have haH1 : q1.height = img.height + 2 * s := hh1.trans haH0
  have hwf1 : q1.data.length = q1.width * q1.height := by
    rw [hl1, hwf0, hw1, hh1]
  obtain ⟨q2, h2, hw2, hh2, hl2, hg2⟩ :=
    mirror_copy_both_char q1 img (img.width - s) (0) (s) (s) (img.width + s) (0)
      (by omega) (by omega) (by omega) (by omega)
      (by rw [haW1]; omega) (by rw [haH1]; omega) hwf1
  have haW2 : q2.width = img.width + 2 * s := hw2.trans haW1
  have haH2 : q2.height = img.height + 2 * s := hh2.trans haH1
  have hwf2 : q2.data.length = q2.width * q2.height := by
    rw [hl2, hwf1, hw2, hh2]
  obtain ⟨q3, h3, hw3, hh3, hl3, hg3⟩ :=
    mirror_copy_both_char q2 img (0) (img.height - s) (s) (s) (0) (img.height + s)
      (by omega) (by omega) (by omega) (by omega)
      (by rw [haW2]; omega) (by rw [haH2]; omega) hwf2
  have haW3 : q3.width = img.width + 2 * s := hw3.trans haW2
  have haH3 : q3.height = img.height + 2 * s := hh3.trans haH2
  have hwf3 : q3.data.length = q3.width * q3.height := by
    rw [hl3, hwf2, hw3, hh3]
  obtain ⟨q4, h4, hw4, hh4, hl4, hg4⟩ :=
    mirror_copy_both_char q3 img (img.width - s) (img.height - s) (s) (s) (img.width + s) (img.height + s)
      (by omega) (by omega) (by omega) (by omega)
      (by rw [haW3]; omega) (by rw [haH3]; omega) hwf3
  have haW4 : q4.width = img.width + 2 * s := hw4.trans haW3
  have haH4 : q4.height = img.height + 2 * s := hh4.trans haH3
  have hwf4 : q4.data.length = q4.width * q4.height := by
    rw [hl4, hwf3, hw4, hh4]
  obtain ⟨q5, h5, hw5, hh5, hl5, hg5⟩ :=
    mirror_copy_hor_char q4 img (0) (0) (s) (img.height) (0) (s)
      (by omega) (by omega) (by omega) (by omega)
      (by rw [haW4]; omega) (by rw [haH4]; omega) hwf4
  have haW5 : q5.width = img.width + 2 * s := hw5.trans haW4
  have haH5 : q5.height = img.height + 2 * s := hh5.trans haH4
  have hwf5 : q5.data.length = q5.width * q5.height := by
    rw [hl5, hwf4, hw5, hh5]
  obtain ⟨q6, h6, hw6, hh6, hl6, hg6⟩ :=
    mirror_copy_hor_char q5 img (img.width - s) (0) (s) (img.height) (img.width + s) (s)
      (by omega) (by omega) (by omega) (by omega)
      (by rw [haW5]; omega) (by rw [haH5]; omega) hwf5
  have haW6 : q6.width = img.width + 2 * s := hw6.trans haW5
  have haH6 : q6.height = img.height + 2 * s := hh6.trans haH5
  have hwf6 : q6.data.length = q6.width * q6.height := by
    rw [hl6, hwf5, hw6, hh6]
  obtain ⟨q7, h7, hw7, hh7, hl7, hg7⟩ :=
    mirror_copy_ver_char q6 img (0) (0) (img.width) (s) (s) (0)
      (by omega) (by omega) (by omega) (by omega)
      (by rw [haW6]; omega) (by rw [haH6]; omega) hwf6
  have haW7 : q7.width = img.width + 2 * s := hw7.trans haW6
  have haH7 : q7.height = img.height + 2 * s := hh7.trans haH6
  have hwf7 : q7.data.length = q7.width * q7.height := by
    rw [hl7, hwf6, hw7, hh7]
  obtain ⟨q8, h8, hw8, hh8, hl8, hg8⟩ :=
    mirror_copy_ver_char q7 img (0) (img.height - s) (img.width) (s) (s) (img.height + s)
      (by omega) (by omega) (by omega) (by omega)
      (by rw [haW7]; omega) (by rw [haH7]; omega) hwf7
  have haW8 : q8.width = img.width + 2 * s := hw8.trans haW7
  have haH8 : q8.height = img.height + 2 * s := hh8.trans haH7
  have hwf8 : q8.data.length = q8.width * q8.height := by
    rw [hl8, hwf7, hw8, hh8]
  have hns : s ≠ 0 := by omega
  have hnw : img.width ≠ 0 := by omega
  have hnh : img.height ≠ 0 := by omega
  have hrun : pad_mirror img (s, s) = Except.ok q8 := by
    unfold pad_mirror pad_zeros
    dsimp only
    simp only [h0, ok_bind,
      sub32_ok img.width s hsw, sub32_ok img.height s hsh,
      Rect.new_ok 0 0 s s hns hns,
      h1,
      Rect.new_ok (img.width - s) 0 s s hns hns,
      Rect.new_ok (img.width + s) 0 s s hns hns,
      h2,
      Rect.new_ok 0 (img.height - s) s s hns hns,
      Rect.new_ok 0 (img.height + s) s s hns hns,
      h3,
      Rect.new_ok (img.width - s) (img.height - s) s s hns hns,
      Rect.new_ok (img.width + s) (img.height + s) s s hns hns,
      h4,
      Rect.new_ok 0 0 s img.height hns hnh,
      Rect.new_ok 0 s s img.height hns hnh,
      h5,
      Rect.new_ok (img.width - s) 0 s img.height hns hnh,
      Rect.new_ok (img.width + s) s s img.height hns hnh,
      h6,
      Rect.new_ok 0 0 img.width s hnw hns,
      Rect.new_ok s 0 img.width s hnw hns,
      h7,
      Rect.new_ok 0 (img.height - s) img.width s hnw hns,
      Rect.new_ok s (img.height + s) img.width s hnw hns,
      h8]
  refine ⟨q8, hrun, haW8, haH8, ?_⟩
  intro x y hxb hyb
  unfold reflIdx
  have hbx0 : x < q0.width := by rw [haW0]; omega
  have hby0 : y < q0.height := by rw [haH0]; omega
  have hbx1 : x < q1.width := by rw [haW1]; omega
  have hby1 : y < q1.height := by rw [haH1]; omega
  have hbx2 : x < q2.width := by rw [haW2]; omega
  have hby2 : y < q2.height := by rw [haH2]; omega
  have hbx3 : x < q3.width := by rw [haW3]; omega
  have hby3 : y < q3.height := by rw [haH3]; omega
  have hbx4 : x < q4.width := by rw [haW4]; omega
  have hby4 : y < q4.height := by rw [haH4]; omega
  have hbx5 : x < q5.width := by rw [haW5]; omega
  have hby5 : y < q5.height := by rw [haH5]; omega
  have hbx6 : x < q6.width := by rw [haW6]; omega
  have hby6 : y < q6.height := by rw [haH6]; omega
  have hbx7 : x < q7.width := by rw [haW7]; omega
  have hby7 : y < q7.height := by rw [haH7]; omega
  rcases Nat.lt_or_ge x s with hxA | hxA
  · rcases Nat.lt_or_ge y s with hyA | hyA
    · -- top-left corner of the margin
      rw [hg8 x y hbx7 hby7,
        if_neg (show ¬(s ≤ x ∧ x < s + img.width ∧ img.height + s ≤ y ∧ y < img.height + s + s) by omega),
        hg7 x y hbx6 hby6,
        if_neg (show ¬(s ≤ x ∧ x < s + img.width ∧ 0 ≤ y ∧ y < 0 + s) by omega),
        hg6 x y hbx5 hby5,
        if_neg (show ¬(img.width + s ≤ x ∧ x < img.width + s + s ∧ s ≤ y ∧ y < s + img.height) by omega),
        hg5 x y hbx4 hby4,
        if_neg (show ¬(0 ≤ x ∧ x < 0 + s ∧ s ≤ y ∧ y < s + img.height) by omega),
        hg4 x y hbx3 hby3,
        if_neg (show ¬(img.width + s ≤ x ∧ x < img.width + s + s ∧ img.height + s ≤ y ∧ y < img.height + s + s) by omega),
        hg3 x y hbx2 hby2,
        if_neg (show ¬(0 ≤ x ∧ x < 0 + s ∧ img.height + s ≤ y ∧ y < img.height + s + s) by omega),
        hg2 x y hbx1 hby1,
        if_neg (show ¬(img.width + s ≤ x ∧ x < img.width + s + s ∧ 0 ≤ y ∧ y < 0 + s) by omega),
        hg1 x y hbx0 hby0,
        if_pos (show 0 ≤ x ∧ x < 0 + s ∧ 0 ≤ y ∧ y < 0 + s by omega),
        if_pos (show x < s by omega),
        if_pos (show y < s by omega)]
      all_goals exact get_pixel_congr img (by omega) (by omega)
    · rcases Nat.lt_or_ge y (s + img.height) with hyB | hyB
      · -- left margin strip
        rw [hg8 x y hbx7 hby7,
          if_neg (show ¬(s ≤ x ∧ x < s + img.width ∧ img.height + s ≤ y ∧ y < img.height + s + s) by omega),
          hg7 x y hbx6 hby6,
          if_neg (show ¬(s ≤ x ∧ x < s + img.width ∧ 0 ≤ y ∧ y < 0 + s) by omega),
          hg6 x y hbx5 hby5,
          if_neg (show ¬(img.width + s ≤ x ∧ x < img.width + s + s ∧ s ≤ y ∧ y < s + img.height) by omega),
          hg5 x y hbx4 hby4,
          if_pos (show 0 ≤ x ∧ x < 0 + s ∧ s ≤ y ∧ y < s + img.height by omega),
          if_pos (show x < s by omega),
          if_neg (show ¬(y < s) by omega),
          if_pos (show y < s + img.height by omega)]
        all_goals exact get_pixel_congr img (by omega) (by omega)
      · -- bottom-left corner of the margin
        rw [hg8 x y hbx7 hby7,
          if_neg (show ¬(s ≤ x ∧ x < s + img.width ∧ img.height + s ≤ y ∧ y < img.height + s + s) by omega),
          hg7 x y hbx6 hby6,
          if_neg (show ¬(s ≤ x ∧ x < s + img.width ∧ 0 ≤ y ∧ y < 0 + s) by omega),
          hg6 x y hbx5 hby5,
          if_neg (show ¬(img.width + s ≤ x ∧ x < img.width + s + s ∧ s ≤ y ∧ y < s + img.height) by omega),
          hg5 x y hbx4 hby4,
          if_neg (show ¬(0 ≤ x ∧ x < 0 + s ∧ s ≤ y ∧ y < s + img.height) by omega),
          hg4 x y hbx3 hby3,
          if_neg (show ¬(img.width + s ≤ x ∧ x < img.width + s + s ∧ img.height + s ≤ y ∧ y < img.height + s + s) by omega),
          hg3 x y hbx2 hby2,
          if_pos (show 0 ≤ x ∧ x < 0 + s ∧ img.height + s ≤ y ∧ y < img.height + s + s by omega),
          if_pos (show x < s by omega),
          if_neg (show ¬(y < s) by omega),
          if_neg (show ¬(y < s + img.height) by omega)]
        all_goals exact get_pixel_congr img (by omega) (by omega)
  · rcases Nat.lt_or_ge x (s + img.width) with hxB | hxB
    · rcases Nat.lt_or_ge y s with hyA | hyA
      · -- top margin strip
        rw [hg8 x y hbx7 hby7,
          if_neg (show ¬(s ≤ x ∧ x < s + img.width ∧ img.height + s ≤ y ∧ y < img.height + s + s) by omega),
          hg7 x y hbx6 hby6,
          if_pos (show s ≤ x ∧ x < s + img.width ∧ 0 ≤ y ∧ y < 0 + s by omega),
          if_neg (show ¬(x < s) by omega),
          if_pos (show x < s + img.width by omega),
          if_pos (show y < s by omega)]
        all_goals exact get_pixel_congr img (by omega) (by omega)
      · rcases Nat.lt_or_ge y (s + img.height) with hyB | hyB
        · -- interior
          rw [hg8 x y hbx7 hby7,
            if_neg (show ¬(s ≤ x ∧ x < s + img.width ∧ img.height + s ≤ y ∧ y < img.height + s + s) by omega),
            hg7 x y hbx6 hby6,
            if_neg (show ¬(s ≤ x ∧ x < s + img.width ∧ 0 ≤ y ∧ y < 0 + s) by omega),
            hg6 x y hbx5 hby5,
            if_neg (show ¬(img.width + s ≤ x ∧ x < img.width + s + s ∧ s ≤ y ∧ y < s + img.height) by omega),
            hg5 x y hbx4 hby4,
            if_neg (show ¬(0 ≤ x ∧ x < 0 + s ∧ s ≤ y ∧ y < s + img.height) by omega),
            hg4 x y hbx3 hby3,
            if_neg (show ¬(img.width + s ≤ x ∧ x < img.width + s + s ∧ img.height + s ≤ y ∧ y < img.height + s + s) by omega),
            hg3 x y hbx2 hby2,
            if_neg (show ¬(0 ≤ x ∧ x < 0 + s ∧ img.height + s ≤ y ∧ y < img.height + s + s) by omega),
            hg2 x y hbx1 hby1,
            if_neg (show ¬(img.width + s ≤ x ∧ x < img.width + s + s ∧ 0 ≤ y ∧ y < 0 + s) by omega),
            hg1 x y hbx0 hby0,
            if_neg (show ¬(0 ≤ x ∧ x < 0 + s ∧ 0 ≤ y ∧ y < 0 + s) by omega),
            hg0 x y hxb hyb,
            if_pos (show s ≤ x ∧ x < s + img.width ∧ s ≤ y ∧ y < s + img.height by omega),
            if_neg (show ¬(x < s) by omega),
            if_pos (show x < s + img.width by omega),
            if_neg (show ¬(y < s) by omega),
            if_pos (show y < s + img.height by omega)]
          all_goals exact get_pixel_congr img (by omega) (by omega)
        · -- bottom margin strip
          rw [hg8 x y hbx7 hby7,
            if_pos (show s ≤ x ∧ x < s + img.width ∧ img.height + s ≤ y ∧ y < img.height + s + s by omega),
            if_neg (show ¬(x < s) by omega),
            if_pos (show x < s + img.width by omega),
            if_neg (show ¬(y < s) by omega),
            if_neg (show ¬(y < s + img.height) by omega)]
          all_goals exact get_pixel_congr img (by omega) (by omega)
    · rcases Nat.lt_or_ge y s with hyA | hyA
      · -- top-right corner of the margin
        rw [hg8 x y hbx7 hby7,
          if_neg (show ¬(s ≤ x ∧ x < s + img.width ∧ img.height + s ≤ y ∧ y < img.height + s + s) by omega),
          hg7 x y hbx6 hby6,
          if_neg (show ¬(s ≤ x ∧ x < s + img.width ∧ 0 ≤ y ∧ y < 0 + s) by omega),
          hg6 x y hbx5 hby5,
          if_neg (show ¬(img.width + s ≤ x ∧ x < img.width + s + s ∧ s ≤ y ∧ y < s + img.height) by omega),
          hg5 x y hbx4 hby4,
          if_neg (show ¬(0 ≤ x ∧ x < 0 + s ∧ s ≤ y ∧ y < s + img.height) by omega),
          hg4 x y hbx3 hby3,
          if_neg (show ¬(img.width + s ≤ x ∧ x < img.width + s + s ∧ img.height + s ≤ y ∧ y < img.height + s + s) by omega),
          hg3 x y hbx2 hby2,
          if_neg (show ¬(0 ≤ x ∧ x < 0 + s ∧ img.height + s ≤ y ∧ y < img.height + s + s) by omega),
          hg2 x y hbx1 hby1,
          if_pos (show img.width + s ≤ x ∧ x < img.width + s + s ∧ 0 ≤ y ∧ y < 0 + s by omega),
          if_neg (show ¬(x < s) by omega),
          if_neg (show ¬(x < s + img.width) by omega),
          if_pos (show y < s by omega)]
        all_goals exact get_pixel_congr img (by omega) (by omega)
      · rcases Nat.lt_or_ge y (s + img.height) with hyB | hyB
        · -- right margin strip
          rw [hg8 x y hbx7 hby7,
            if_neg (show ¬(s ≤ x ∧ x < s + img.width ∧ img.height + s ≤ y ∧ y < img.height + s + s) by omega),
            hg7 x y hbx6 hby6,
            if_neg (show ¬(s ≤ x ∧ x < s + img.width ∧ 0 ≤ y ∧ y < 0 + s) by omega),
            hg6 x y hbx5 hby5,
            if_pos (show img.width + s ≤ x ∧ x < img.width + s + s ∧ s ≤ y ∧ y < s + img.height by omega),
            if_neg (show ¬(x < s) by omega),
            if_neg (show ¬(x < s + img.width) by omega),
            if_neg (show ¬(y < s) by omega),
            if_pos (show y < s + img.height by omega)]
          all_goals exact get_pixel_congr img (by omega) (by omega)
        · -- bottom-right corner of the margin
          rw [hg8 x y hbx7 hby7,
            if_neg (show ¬(s ≤ x ∧ x < s + img.width ∧ img.height + s ≤ y ∧ y < img.height + s + s) by omega),
            hg7 x y hbx6 hby6,
            if_neg (show ¬(s ≤ x ∧ x < s + img.width ∧ 0 ≤ y ∧ y < 0 + s) by omega),
            hg6 x y hbx5 hby5,
            if_neg (show ¬(img.width + s ≤ x ∧ x < img.width + s + s ∧ s ≤ y ∧ y < s + img.height) by omega),
            hg5 x y hbx4 hby4,
            if_neg (show ¬(0 ≤ x ∧ x < 0 + s ∧ s ≤ y ∧ y < s + img.height) by omega),
            hg4 x y hbx3 hby3,
            if_pos (show img.width + s ≤ x ∧ x < img.width + s + s ∧ img.height + s ≤ y ∧ y < img.height + s + s by omega),
            if_neg (show ¬(x < s) by omega),
            if_neg (show ¬(x < s + img.width) by omega),
            if_neg (show ¬(y < s) by omega),
            if_neg (show ¬(y < s + img.height) by omega)]
          all_goals exact get_pixel_congr img (by omega) (by omega)

theorem row_list_ok [Inhabited P] (img : Image2d P) (y : Nat) (hy : y < img.height) :
    row_list img y = some ((List.range img.width).map (fun x => get_pixel img x y)) := by
  simp [row_list, hy]

theorem col_list_ok [Inhabited P] (img : Image2d P) (x : Nat) (hx : x < img.width) :
    col_list img x = some ((List.range img.height).map (fun y => get_pixel img x y)) := by
  simp [col_list, hx]

theorem optUnwrap_some (a : α) : optUnwrap (some a) = Except.ok a := rfl

set_option maxHeartbeats 2000000 in
theorem pad_replicate_char [Inhabited P] [Zero P] (img : Image2d P) (s : Nat)
    (hs : 1 ≤ s) (hw : 0 < img.width) (hh : 0 < img.height) :
    ∃ p, pad_replicate img (s, s) = Except.ok p ∧
      p.width = img.width + 2 * s ∧ p.height = img.height + 2 * s ∧
      ∀ x y, x < img.width → y < img.height →
        get_pixel p (s + x) (s + y) = get_pixel img x y := by
  obtain ⟨q0, h0, haW0, haH0, hwf0, hg0⟩ :=
    pad_constant_char img s (0 : P) (by omega) (by omega)
  obtain ⟨q1, h1, hw1, hh1, hl1, hg1⟩ :=
    sub_image_fill_char q0 (get_pixel img 0 0) (0) (0) (s) (s)
      (by omega) (by omega)
      (by rw [haW0]; omega) (by rw [haH0]; omega) hwf0
  have haW1 : q1.width = img.width + 2 * s := hw1.trans haW0
  have haH1 : q1.height = img.height + 2 * s := hh1.trans haH0
  have hwf1 : q1.data.length = q1.width * q1.height := by
    rw [hl1, hwf0, hw1, hh1]
  obtain ⟨q2, h2, hw2, hh2, hl2, hg2⟩ :=
    sub_image_fill_char q1 (get_pixel img 0 (img.height - 1)) (0) (img.height + s) (s) (s)
      (by omega) (by omega)
      (by rw [haW1]; omega) (by rw [haH1]; omega) hwf1
  have haW2 : q2.width = img.width + 2 * s := hw2.trans haW1
  have haH2 : q2.height = img.height + 2 * s := hh2.trans haH1
  have hwf2 : q2.data.length = q2.width * q2.height := by
    rw [hl2, hwf1, hw2, hh2]
  obtain ⟨q3, h3, hw3, hh3, hl3, hg3⟩ :=
    sub_image_fill_char q2 (get_pixel img (img.width - 1) 0) (img.width + s) (0) (s) (s)
      (by omega) (by omega)
      (by rw [haW2]; omega) (by rw [haH2]; omega) hwf2
  have haW3 : q3.width = img.width + 2 * s := hw3.trans haW2
  have haH3 : q3.height = img.height + 2 * s := hh3.trans haH2
  have hwf3 : q3.data.length = q3.width * q3.height := by
    rw [hl3, hwf2, hw3, hh3]
  obtain ⟨q4, h4, hw4, hh4, hl4, hg4⟩ :=
    sub_image_fill_char q3 (get_pixel img (img.width - 1) (img.height - 1)) (img.width + s) (img.height + s) (s) (s)
      (by omega) (by omega)
      (by rw [haW3]; omega) (by rw [haH3]; omega) hwf3
  have haW4 : q4.width = img.width + 2 * s := hw4.trans haW3
  have haH4 : q4.height = img.height + 2 * s := hh4.trans haH3
  have hwf4 : q4.data.length = q4.width * q4.height := by
    rw [hl4, hwf3, hw4, hh4]
  obtain ⟨q5, h5, hw5, hh5, hl5, hg5⟩ :=
    sub_image_fill_cols_char q4 ((List.range img.width).map (fun x => get_pixel img x 0)) (s) (0) (img.width) (s)
      (by omega) (by omega) (by simp)
      (by rw [haW4]; omega) (by rw [haH4]; omega) hwf4
  have haW5 : q5.width = img.width + 2 * s := hw5.trans haW4
  have haH5 : q5.height = img.height + 2 * s := hh5.trans haH4
  have hwf5 : q5.data.length = q5.width * q5.height := by
    rw [hl5, hwf4, hw5, hh5]
  obtain ⟨q6, h6, hw6, hh6, hl6, hg6⟩ :=
    sub_image_fill_rows_char q5 ((List.range img.height).map (fun y => get_pixel img 0 y)) (0) (s) (s) (img.height)
      (by omega) (by omega) (by simp)
      (by rw [haW5]; omega) (by rw [haH5]; omega) hwf5
  have haW6 : q6.width = img.width + 2 * s := hw6.trans haW5
  have haH6 : q6.height = img.height + 2 * s := hh6.trans haH5
  have hwf6 : q6.data.length = q6.width * q6.height := by
    rw [hl6, hwf5, hw6, hh6]
  obtain ⟨q7, h7, hw7, hh7, hl7, hg7⟩ :=
    sub_image_fill_rows_char q6 ((List.range img.height).map (fun y => get_pixel img (img.width - 1) y)) (img.width + s) (s) (s) (img.height)
      (by omega) (by omega) (by simp)
      (by rw [haW6]; omega) (by rw [haH6]; omega) hwf6
  have haW7 : q7.width = img.width + 2 * s := hw7.trans haW6
  have haH7 : q7.height = img.height + 2 * s := hh7.trans haH6
  have hwf7 : q7.data.length = q7.width * q7.height := by
    rw [hl7, hwf6, hw7, hh7]
  obtain ⟨q8, h8, hw8, hh8, hl8, hg8⟩ :=
    sub_image_fill_cols_char q7 ((List.range img.width).map (fun x => get_pixel img x (img.height - 1))) (s) (img.height + s) (img.width) (s)
      (by omega) (by omega) (by simp)
      (by rw [haW7]; omega) (by rw [haH7]; omega) hwf7
  have haW8 : q8.width = img.width + 2 * s := hw8.trans haW7
  have haH8 : q8.height = img.height + 2 * s := hh8.trans haH7
  have hwf8 : q8.data.length = q8.width * q8.height := by
    rw [hl8, hwf7, hw8, hh8]
  have hns : s ≠ 0 := by omega
  have hnw : img.width ≠ 0 := by omega
  have hnh : img.height ≠ 0 := by omega
  have hrun : pad_replicate img (s, s) = Except.ok q8 := by
    unfold pad_replicate pad_zeros
    dsimp only
    simp only [h0, ok_bind,
      Rect.new_ok 0 0 s s hns hns,
      h1,
      sub32_ok img.height 1 (by omega),
      Rect.new_ok 0 (img.height + s) s s hns hns,
      h2,
      sub32_ok img.width 1 (by omega),
      Rect.new_ok (img.width + s) 0 s s hns hns,
      h3,
      Rect.new_ok (img.width + s) (img.height + s) s s hns hns,
      h4,
      row_list_ok img 0 (by omega), optUnwrap_some,
      Rect.new_ok s 0 img.width s hnw hns,
      h5,
      col_list_ok img 0 (by omega),
      Rect.new_ok 0 s s img.height hns hnh,
      h6,
      col_list_ok img (img.width - 1) (by omega),
      Rect.new_ok (img.width + s) s s img.height hns hnh,
      h7,
      row_list_ok img (img.height - 1) (by omega),
      Rect.new_ok s (img.height + s) img.width s hnw hns,
      h8]
  refine ⟨q8, hrun, haW8, haH8, ?_⟩
  intro x y hxg hyg
  have hbx0 : s + x < q0.width := by rw [haW0]; omega
  have hby0 : s + y < q0.height := by rw [haH0]; omega
  have hbx1 : s + x < q1.width := by rw [haW1]; omega
  have hby1 : s + y < q1.height := by rw [haH1]; omega
  have hbx2 : s + x < q2.width := by rw [haW2]; omega
  have hby2 : s + y < q2.height := by rw [haH2]; omega
  have hbx3 : s + x < q3.width := by rw [haW3]; omega
  have hby3 : s + y < q3.height := by rw [haH3]; omega
  have hbx4 : s + x < q4.width := by rw [haW4]; omega
  have hby4 : s + y < q4.height := by rw [haH4]; omega
  have hbx5 : s + x < q5.width := by rw [haW5]; omega
  have hby5 : s + y < q5.height := by rw [haH5]; omega
  have hbx6 : s + x < q6.width := by rw [haW6]; omega
  have hby6 : s + y < q6.height := by rw [haH6]; omega
  have hbx7 : s + x < q7.width := by rw [haW7]; omega
  have hby7 : s + y < q7.height := by rw [haH7]; omega
  rw [hg8 (s + x) (s + y) hbx7 hby7,
    if_neg (show ¬(s ≤ s + x ∧ s + x < s + img.width ∧ img.height + s ≤ s + y ∧ s + y < img.height + s + s) by omega),
    hg7 (s + x) (s + y) hbx6 hby6,
    if_neg (show ¬(img.width + s ≤ s + x ∧ s + x < img.width + s + s ∧ s ≤ s + y ∧ s + y < s + img.height) by omega),
    hg6 (s + x) (s + y) hbx5 hby5,
    if_neg (show ¬(0 ≤ s + x ∧ s + x < 0 + s ∧ s ≤ s + y ∧ s + y < s + img.height) by omega),
    hg5 (s + x) (s + y) hbx4 hby4,
    if_neg (show ¬(s ≤ s + x ∧ s + x < s + img.width ∧ 0 ≤ s + y ∧ s + y < 0 + s) by omega),
    hg4 (s + x) (s + y) hbx3 hby3,
    if_neg (show ¬(img.width + s ≤ s + x ∧ s + x < img.width + s + s ∧ img.height + s ≤ s + y ∧ s + y < img.height + s + s) by omega),
    hg3 (s + x) (s + y) hbx2 hby2,
    if_neg (show ¬(img.width + s ≤ s + x ∧ s + x < img.width + s + s ∧ 0 ≤ s + y ∧ s + y < 0 + s) by omega),
    hg2 (s + x) (s + y) hbx1 hby1,
    if_neg (show ¬(0 ≤ s + x ∧ s + x < 0 + s ∧ img.height + s ≤ s + y ∧ s + y < img.height + s + s) by omega),
    hg1 (s + x) (s + y) hbx0 hby0,
    if_neg (show ¬(0 ≤ s + x ∧ s + x < 0 + s ∧ 0 ≤ s + y ∧ s + y < 0 + s) by omega),
    hg0 (s + x) (s + y) (by omega) (by omega),
    if_pos (show s ≤ s + x ∧ s + x < s + img.width ∧ s ≤ s + y ∧ s + y < s + img.height by omega)]
  exact get_pixel_congr img (by omega) (by omega)

theorem err_bind (e : ε) (f : α → Except ε β) :
    (Except.error e >>= f : Except ε β) = Except.error e := rfl

theorem Rect.new_err (x y w h : Nat) (hcond : ¬(w ≠ 0 ∧ h ≠ 0)) :
    Rect.new x y w h = Except.error "Rect dimensions must be strictly positive." := by
  simp only [Rect.new, if_neg hcond]

theorem blit_rect_err_src [Inhabited P] (dst : Image2d P) (sr dr : Rect)
    (img : Image2d P) (hsz : sr.size = dr.size) (h : ¬ sr.fits_image img) :
    blit_rect dst sr dr img = Except.error "Source rect does not fit source image." := by
  simp [blit_rect, hsz, h]

theorem mirror_copy_both_err [Inhabited P] (padded img : Image2d P) (sr dr : Rect)
    (h : ¬ (sr.right < img.width ∧ sr.bottom < img.height)) :
    mirror_copy_both padded img sr dr = Except.error "ndarray slice out of bounds" := by
  simp only [mirror_copy_both, if_pos h]

theorem pad_replicate_zero_size [Inhabited P] [Zero P] (img : Image2d P)
    (hw : 0 < img.width) (hh : 0 < img.height) :
    pad_replicate img (0, 0) =
      Except.error "Rect dimensions must be strictly positive." := by
  obtain ⟨q0, h0, _, _, _, _⟩ := pad_constant_char img 0 (0 : P) hw hh
  unfold pad_replicate pad_zeros
  dsimp only
  simp only [h0, ok_bind, Rect.new_err 0 0 0 0 (by simp), err_bind]

theorem pad_wrap_zero_size [Inhabited P] [Zero P] (img : Image2d P)
    (hw : 0 < img.width) (hh : 0 < img.height) :
    pad_wrap img (0, 0) =
      Except.error "Rect dimensions must be strictly positive." := by
  obtain ⟨q0, h0, _, _, _, _⟩ := pad_constant_char img 0 (0 : P) hw hh
  unfold pad_wrap pad_zeros
  dsimp only
  simp only [h0, ok_bind, Rect.new_err 0 0 0 0 (by simp), err_bind]

theorem pad_mirror_zero_size [Inhabited P] [Zero P] (img : Image2d P)
    (hw : 0 < img.width) (hh : 0 < img.height) :
    pad_mirror img (0, 0) =
      Except.error "Rect dimensions must be strictly positive." := by
  obtain ⟨q0, h0, _, _, _, _⟩ := pad_constant_char img 0 (0 : P) hw hh
  unfold pad_mirror pad_zeros
  dsimp only
  simp only [h0, ok_bind, Rect.new_err 0 0 0 0 (by simp), err_bind]

theorem pad_wrap_oversize [Inhabited P] [Zero P] (img : Image2d P) (r : Nat)
    (hw : 0 < img.width) (hh : 0 < img.height)
    (hover : img.width < r ∨ img.height < r) :
    pad_wrap img (r, r) =
      Except.error "Source rect does not fit source image." := by
  obtain ⟨q0, h0, _, _, _, _⟩ := pad_constant_char img r (0 : P) hw hh
  unfold pad_wrap pad_zeros
  dsimp only
  simp only [h0, ok_bind,
    Rect.new_ok 0 0 r r (by omega) (by omega),
    Rect.new_ok (img.width + r) (img.height + r) r r (by omega) (by omega),
    blit_rect_err_src q0 ⟨0, 0, r, r⟩ ⟨img.width + r, img.height + r, r, r⟩ img rfl
      (by simp only [Rect.fits_image, Rect.right, Rect.bottom]; omega),
    err_bind]

theorem pad_mirror_oversize [Inhabited P] [Zero P] (img : Image2d P) (r : Nat)
    (hw : 0 < img.width) (hh : 0 < img.height)
    (hover : img.width < r ∨ img.height < r) :
    pad_mirror img (r, r) = Except.error "ndarray slice out of bounds" := by
  obtain ⟨q0, h0, _, _, _, _⟩ := pad_constant_char img r (0 : P) hw hh
  unfold pad_mirror pad_zeros
  dsimp only
  simp only [h0, ok_bind,
    Rect.new_ok 0 0 r r (by omega) (by omega),
    mirror_copy_both_err q0 img ⟨0, 0, r, r⟩ ⟨0, 0, r, r⟩
      (by simp only [Rect.right, Rect.bottom]; omega),
    err_bind]

theorem mapExcept_ok_length {f : α → Except ε β} {l : List α} {r : List β}
    (h : mapExcept f l = Except.ok r) : r.length = l.length := by
  induction l generalizing r with
  | nil =>
    simp only [mapExcept] at h
    cases h
    rfl
  | cons a l ih =>
    simp only [mapExcept] at h
    cases hfa : f a with
    | error e => rw [hfa, err_bind] at h; exact Except.noConfusion h
    | ok b =>
      rw [hfa, ok_bind] at h
      cases hrest : mapExcept f l with
      | error e => rw [hrest, err_bind] at h; exact Except.noConfusion h
      | ok bs =>
        rw [hrest, ok_bind] at h
        cases h
        simp [ih hrest]

theorem mapExcept_ok_getD {f : α → Except ε β} {l : List α} {r : List β}
    (h : mapExcept f l = Except.ok r) (k : Nat) (hk : k < l.length)
    (d₁ : α) (d₂ : β) : f (l.getD k d₁) = Except.ok (r.getD k d₂) := by
  induction l generalizing r k with
  | nil => simp at hk
  | cons a l ih =>
    simp only [mapExcept] at h
    cases hfa : f a with
    | error e => rw [hfa, err_bind] at h; exact Except.noConfusion h
    | ok b =>
      rw [hfa, ok_bind] at h
      cases hrest : mapExcept f l with
      | error e => rw [hrest, err_bind] at h; exact Except.noConfusion h
      | ok bs =>
        rw [hrest, ok_bind] at h
        cases h
        cases k with
        | zero => exact hfa
        | succ k => exact ih hrest k (by simpa using hk)

theorem from_slice_list_eq [Zero α] (n : Nat) (s : List α) :
    from_slice_list n s = s.take n ++ List.replicate (n - s.length) 0 := by
  induction n generalizing s with
  | zero => simp [from_slice_list]
  | succ n ih =>
    cases s with
    | nil => simp [from_slice_list, ih, List.replicate_succ]
    | cons c s => simp [from_slice_list, ih]

theorem from_slice_list_length [Zero α] (n : Nat) (s : List α) :
    (from_slice_list n s).length = n := by
  rw [from_slice_list_eq]
  simp only [List.length_append, List.length_take, List.length_replicate]
  omega

theorem set_to_slice_list_eq (d s : List α) :
    set_to_slice_list d s = s.take d.length ++ d.drop s.length := by
  induction d generalizing s with
  | nil => cases s <;> simp [set_to_slice_list]
  | cons x d ih =>
    cases s with
    | nil => simp [set_to_slice_list]
    | cons e s => simp [set_to_slice_list, ih]

theorem getD_map_lt (l : List α) (g : α → β) (i : Nat) (hi : i < l.length)
    (z : β) (d : α) : (l.map g).getD i z = g (l.getD i d) := by
  simp only [List.getD_eq_getElem?_getD, List.getElem?_map]
  rw [List.getElem?_eq_getElem hi]
  simp [List.getD_eq_getElem?_getD, List.getElem?_eq_getElem hi]

theorem getD_range_map (g : Nat → β) (n i : Nat) (hi : i < n) (z : β) :
    ((List.range n).map g).getD i z = g i := by
  rw [getD_map_lt _ _ _ (by simpa using hi) _ 0]
  simp [List.getD_eq_getElem?_getD, List.getElem?_range hi]

theorem getD_mem (l : List α) (i : Nat) (hi : i < l.length) (d : α) :
    l.getD i d ∈ l := by
  rw [List.getD_eq_getElem?_getD, List.getElem?_eq_getElem hi]
  exact List.getElem_mem hi

theorem listChunksF_fuel (n : Nat) (f1 : Nat) : ∀ (f2 : Nat) (l : List α),
    l.length ≤ f1 → l.length ≤ f2 → listChunksF n f1 l = listChunksF n f2 l := by
  induction f1 with
  | zero =>
    intro f2 l h1 h2
    cases l with
    | nil => cases f2 <;> rfl
    | cons a t => simp at h1
  | succ f1 ih =>
    intro f2 l h1 h2
    cases l with
    | nil => cases f2 <;> rfl
    | cons a t =>
      cases f2 with
      | zero => simp at h2
      | succ f2 =>
        show ((a :: t).take n) :: listChunksF n f1 (t.drop (n - 1)) =
          ((a :: t).take n) :: listChunksF n f2 (t.drop (n - 1))
        congr 1
        simp only [List.length_cons] at h1 h2
        refine ih f2 _ ?_ ?_ <;> · simp only [List.length_drop]; omega

theorem listChunks_nil (n : Nat) : listChunks n ([] : List α) = [] := rfl

theorem listChunks_cons (n : Nat) (a : α) (l : List α) :
    listChunks n (a :: l) = ((a :: l).take n) :: listChunks n (l.drop (n - 1)) := by
  show ((a :: l).take n) :: listChunksF n l.length (l.drop (n - 1)) =
    ((a :: l).take n) :: listChunksF n (l.drop (n - 1)).length (l.drop (n - 1))
  congr 1
  refine listChunksF_fuel n l.length _ _ ?_ ?_ <;> · simp only [List.length_drop]; omega

theorem listChunks_induct (n : Nat) {motive : List α → Prop} (v : List α)
    (h0 : motive [])
    (h1 : ∀ a l, motive (List.drop (n - 1) l) → motive (a :: l)) :
    motive v := by
  have key : ∀ (N : Nat) (w : List α), w.length = N → motive w := by
    intro N
    induction N using Nat.strong_induction_on with
    | _ N ih =>
      intro w hN
      cases w with
      | nil => exact h0
      | cons a l =>
        refine h1 a l (ih (l.drop (n - 1)).length ?_ _ rfl)
        subst hN
        simp only [List.length_drop, List.length_cons]
        omega
  exact key v.length v rfl

theorem listChunks_cons_full (n : Nat) (u v : List α) (hu : u.length = n)
    (hn : 0 < n) : listChunks n (u ++ v) = u :: listChunks n v := by
  cases u with
  | nil => simp at hu; omega
  | cons a urest =>
    show listChunks n ((a :: urest) ++ v) = _
    rw [List.cons_append]
    rw [listChunks_cons]
    congr 1
    · rw [show n = (a :: urest).length from hu.symm, ← List.cons_append,
        List.take_left]
    · have hur : urest.length = n - 1 := by simp at hu; omega
      rw [show n - 1 = urest.length from hur.symm, List.drop_left]

theorem listChunks_flatMap (n : Nat) (l : List α) (f : α → List β)
    (hn : 0 < n) (hlen : ∀ a ∈ l, (f a).length = n) :
    listChunks n (l.flatMap f) = l.map f := by
  induction l with
  | nil => simp [listChunks_nil]
  | cons a l ih =>
    rw [List.flatMap_cons, listChunks_cons_full n (f a) _
      (hlen a (List.mem_cons_self _ _)) hn, List.map_cons]
    rw [ih (fun b hb => hlen b (List.mem_cons_of_mem _ hb))]

theorem listChunks_length (n : Nat) (hn : 0 < n) (v : List α) :
    (listChunks n v).length = (v.length + (n - 1)) / n := by
  induction v using listChunks_induct n with
  | h0 => simp [listChunks_nil, Nat.div_eq_of_lt (by omega : n - 1 < n)]
  | h1 a l ih =>
    rw [listChunks_cons]
    simp only [List.length_cons, ih]
    rcases le_or_lt (n - 1) l.length with hcase | hcase
    · rw [List.length_drop, Nat.sub_add_cancel hcase,
        show l.length + 1 + (n - 1) = l.length + n by omega,
        Nat.add_div_right _ hn]
    · rw [List.length_drop, show l.length - (n - 1) = 0 by omega,
        show l.length + 1 + (n - 1) = l.length + n by omega,
        Nat.add_div_right _ hn, Nat.div_eq_of_lt (by omega : l.length < n),
        Nat.div_eq_of_lt (by omega : 0 + (n - 1) < n)]

theorem listChunks_join (n : Nat) (hn : 0 < n) (v : List α) :
    (listChunks n v).flatMap id = v := by
  induction v using listChunks_induct n with
  | h0 => simp [listChunks_nil]
  | h1 a l ih =>
    rw [listChunks_cons, List.flatMap_cons, ih]
    show (a :: l).take n ++ l.drop (n - 1) = a :: l
    generalize hm : n - 1 = m
    rw [show n = m + 1 by omega, List.take_succ_cons, List.cons_append,
      List.take_append_drop]

theorem listChunks_full_length (n : Nat) (hn : 0 < n) (v : List α)
    (hdvd : n ∣ v.length) : ∀ c ∈ listChunks n v, c.length = n := by
  induction v using listChunks_induct n with
  | h0 => simp [listChunks_nil]
  | h1 a l ih =>
    intro c hc
    obtain ⟨k, hk⟩ := id hdvd
    simp only [List.length_cons] at hk
    cases k with
    | zero => omega
    | succ k =>
      rw [Nat.mul_succ] at hk
      have hM := hk
      generalize hgen : n * k = M at hM
      rw [listChunks_cons] at hc
      rcases List.mem_cons.mp hc with hc | hc
      · rw [hc, List.length_take]
        simp only [List.length_cons]
        omega
      · refine ih ⟨k, ?_⟩ c hc
        rw [List.length_drop, ← hgen] at *
        omega

theorem sum_chunks_foldl_getD (cn : ConvNum S T O) (n i : Nat) (hi : i < n)
    (cs : List (List T)) (acc : List T) (hacc : acc.length = n) :
    ((cs.foldl (fun a c =>
        (List.range n).map (fun i => cn.tAdd (a.getD i cn.tZero) (c.getD i cn.tZero)))
      acc).getD i cn.tZero) =
    cs.foldl (fun t c => cn.tAdd t (c.getD i cn.tZero)) (acc.getD i cn.tZero) := by
  induction cs generalizing acc with
  | nil => rfl
  | cons c cs ih =>
    simp only [List.foldl_cons]
    rw [ih _ (by simp), getD_range_map _ n i hi]

theorem sum_chunks_getD (cn : ConvNum S T O) (n i : Nat) (hi : i < n)
    (ps : List (Pix n S × T)) (hn : 0 < n)
    (hlen : ∀ pe ∈ ps, pe.1.data.length = n) :
    (sum_chunks cn n (ps.flatMap
        (fun pe => pe.1.data.map (fun c => cn.tMul pe.2 (cn.castST c))))).getD i cn.tZero =
    ps.foldl
      (fun t pe => cn.tAdd t (cn.tMul pe.2 (cn.castST (pe.1.data.getD i cn.sMin))))
      cn.tZero := by
  unfold sum_chunks
  rw [listChunks_flatMap n ps _ hn (fun pe hpe => by simp [hlen pe hpe])]
  rw [sum_chunks_foldl_getD cn n i hi _ _ (by simp)]
  rw [List.foldl_map]
  rw [show (List.replicate n cn.tZero).getD i cn.tZero = cn.tZero from by
    simp [List.getD_eq_getElem?_getD, List.getElem?_replicate, hi]]
  refine List.foldl_ext _ _ _ ?_
  intro t pe hpe
  rw [getD_map_lt _ _ _ (by rw [hlen pe hpe]; exact hi) _ cn.sMin]

theorem crop_formula [Inhabited P] (img : Image2d P) (x y d : Nat)
    (hx : x < img.width) (hy : y < img.height) (hd : 1 ≤ d) :
    crop_to_image ⟨x, y, d, d⟩ img =
      Except.ok (some ⟨x, y, min d (img.width - x), min d (img.height - y)⟩) := by
  unfold crop_to_image
  rw [Rect.new_ok 0 0 img.width img.height (by omega) (by omega), ok_bind]
  unfold Rect.intersection
  dsimp only
  simp only [Rect.right, Rect.bottom]
  rw [if_pos (show max x 0 ≤ min (x + d - 1) (0 + img.width - 1) ∧
      max y 0 ≤ min (y + d - 1) (0 + img.height - 1) by omega)]
  rw [Rect.new_ok (max x 0) (max y 0)
      (min (x + d - 1) (0 + img.width - 1) - max x 0 + 1)
      (min (y + d - 1) (0 + img.height - 1) - max y 0 + 1)
      (by omega) (by omega)]
  show Except.ok (some _) = _
  simp only [Except.ok.injEq, Option.some.injEq, Rect.mk.injEq]
  refine ⟨?_, ?_, ?_, ?_⟩ <;> omega

theorem from_slice_list_full [Zero α] (n : Nat) (s : List α) (h : s.length = n) :
    from_slice_list n s = s := by
  rw [from_slice_list_eq, h.symm, List.take_length]
  simp

theorem convolve_pixel_char [Zero O] (cn : ConvNum S T O) (kern : Kernel T)
    (img padded : Image2d (Pix n S)) (x y : Nat)
    (hn : 0 < n) (hx : x < img.width) (hy : y < img.height)
    (hpw : img.width ≤ padded.width) (hph : img.height ≤ padded.height)
    (hwfp : padded.data.length = padded.width * padded.height)
    (hch : ∀ p ∈ padded.data, p.data.length = n) :
    convolve_pixel cn kern img padded x y = Except.ok ⟨(List.range n).map (fun i =>
      (cn.castTO (num_clamp cn.tLt
        (((rect_iter_list padded
            ⟨x, y, min (2 * kern.radius + 1) (img.width - x),
                   min (2 * kern.radius + 1) (img.height - y)⟩).zip kern.elems).foldl
          (fun t pe => cn.tAdd t (cn.tMul pe.2 (cn.castST (pe.1.data.getD i cn.sMin))))
          cn.tZero)
        (cn.castST cn.sMin) (cn.castST cn.sMax))).getD cn.oZero)⟩ := by
  unfold convolve_pixel
  dsimp only
  rw [Rect.new_ok x y (2 * kern.radius + 1) (2 * kern.radius + 1)
    (by omega) (by omega), ok_bind]
  rw [crop_formula img x y (2 * kern.radius + 1) hx hy (by omega), ok_bind,
    optUnwrap_some, ok_bind]
  have hwin : ∀ pe ∈ (rect_iter_list padded
      ⟨x, y, min (2 * kern.radius + 1) (img.width - x),
             min (2 * kern.radius + 1) (img.height - y)⟩).zip kern.elems,
      pe.1.data.length = n := by
    intro pe hpe
    have h1 : pe.1 ∈ rect_iter_list padded
        ⟨x, y, min (2 * kern.radius + 1) (img.width - x),
               min (2 * kern.radius + 1) (img.height - y)⟩ :=
      (List.of_mem_zip hpe).1
    unfold rect_iter_list at h1
    rw [List.mem_map] at h1
    obtain ⟨q, hq, hqe⟩ := h1
    obtain ⟨hq1, hq2⟩ := (rowMajor_mem _ _ q).mp hq
    dsimp only at hq1 hq2
    rw [← hqe]
    refine hch _ (getD_mem _ _ ?_ _)
    rw [hwfp]
    exact idx_lt _ _ _ _ (by dsimp only; omega) (by dsimp only; omega)
  show Except.ok (Pix.from_slice n _) = _
  unfold Pix.from_slice
  rw [from_slice_list_full n _ (by simp)]
  congr 1
  congr 1
  refine List.map_congr_left ?_
  intro i hi
  rw [List.mem_range] at hi
  rw [sum_chunks_getD cn n i hi _ hn hwin]

/-- C1: REFUTED.  The claim states that every output pixel (x, y) of
Kernel::convolve is computed from the full (2r+1)-by-(2r+1) window of the
PADDED buffer with top-left corner (x, y), exactly centered on input pixel
(x, y).  The code instead crops the window rect against the UN-padded image
(kernel.rs line 62, rect.crop_to_image(img)), so for output pixels within
2r of the right or bottom border the window is truncated and its pixels are
paired with the wrong (initial) kernel elements.  Concretely: convolving
img3x3 (pixel values 1..9) with the radius-1 identity kernel under
constant-0 padding should reproduce img3x3 pixel for pixel, but the code
returns convIdOut3x3, whose center pixel (1, 1) is 0 instead of 5. -/
theorem c1_convolve_truncates_windows :
    idKernel3.convolve ctxU8 img3x3 (Padding.constant ⟨[0]⟩) =
      Except.ok convIdOut3x3 ∧
    get_pixel convIdOut3x3 1 1 = ⟨[0]⟩ ∧
    get_pixel img3x3 1 1 = ⟨[5]⟩ ∧
    get_pixel convIdOut3x3 1 1 ≠ get_pixel img3x3 1 1 := by
  refine ⟨by with_unfolding_all rfl, by decide, by decide, by decide⟩

/-- C2: REFUTED.  The claim states that convolving a constant-valued image
with Kernel::box_(r) preserves the constant everywhere, including borders
and corners.  Because convolve crops the window against the un-padded image
(kernel.rs line 62), border windows are truncated and only a fraction of
the box weights is applied: the constant-9 3-by-3 image convolved with
box_(1) under replicate padding (so no rounding is involved for full
windows) yields boxOut3x3, whose corner (2, 2) is 1 instead of 9. -/
theorem c2_box_constant_not_preserved :
    (box_ 1).convolve ctxU8 imgConst9 Padding.replicate =
      Except.ok boxOut3x3 ∧
    get_pixel boxOut3x3 2 2 = ⟨[1]⟩ ∧
    get_pixel imgConst9 2 2 = ⟨[9]⟩ ∧
    get_pixel boxOut3x3 2 2 ≠ get_pixel imgConst9 2 2 := by
  refine ⟨by with_unfolding_all rfl, by decide, by decide, by decide⟩

/-- C3 (amended): for every image and padding size 1 ≤ s no larger than
either dimension, pad_mirror succeeds with dimensions (w+2s, h+2s) and the
padded cell (x, y) holds the source pixel at index reflIdx on each axis:
the reflection starts AT the border pixel (low-margin cell x reads source
index s-1-x, so the border pixel itself IS repeated), not one pixel inside
the border as the claim states.  A row [a, b, c, d, e] padded with radius 2
therefore reads [b, a | a, b, c, d, e | e, d], not [c, b | ... | d, c]. -/
theorem c3_mirror_repeats_border [Inhabited P] [Zero P] (img : Image2d P)
    (s : Nat) (hs : 1 ≤ s) (hsw : s ≤ img.width) (hsh : s ≤ img.height) :
    ∃ p, pad_mirror img (s, s) = Except.ok p ∧
      p.width = img.width + 2 * s ∧ p.height = img.height + 2 * s ∧
      ∀ x y, x < img.width + 2 * s → y < img.height + 2 * s →
        get_pixel p x y =
          get_pixel img (reflIdx img.width s x) (reflIdx img.height s y) :=
  pad_mirror_char img s hs hsw hsh

/-- C3 (counterexample): the first source row of img5x2 is [1, 2, 3, 4, 5];
under the claimed no-border-repeat reflection its radius-2 mirror padding
would read [3, 2 | 1, 2, 3, 4, 5 | 4, 3], putting 3 in the leftmost cell of
that row (padded coordinate (0, 2)).  The code stores 2 there. -/
theorem c3_mirror_cex :
    pad_mirror img5x2 (2, 2) = Except.ok mirrorPadded5x2 ∧
    get_pixel mirrorPadded5x2 0 2 = 2 ∧ (2 : ℕ) ≠ 3 := by
  refine ⟨rfl, by decide, by decide⟩

/-- C3 witness: the amended mirror characterization instantiated on img5x2
with s = 2 at padded cell (0, 2): reflIdx 5 2 0 = 1 and reflIdx 2 2 2 = 0,
so the cell repeats-the-border value is source pixel (1, 0) = 2. -/
theorem c3_mirror_repeats_border_witness :
    pad_mirror img5x2 (2, 2) = Except.ok mirrorPadded5x2 ∧
    get_pixel mirrorPadded5x2 0 2 = get_pixel img5x2 (reflIdx 5 2 0) (reflIdx 2 2 2) := by
  obtain ⟨p, h1, _, _, hg⟩ :=
    c3_mirror_repeats_border img5x2 2 (by omega) (by decide) (by decide)
  have h2 : pad_mirror img5x2 (2, 2) = Except.ok mirrorPadded5x2 := rfl
  refine ⟨h2, ?_⟩
  rw [h1] at h2
  injection h2 with h3
  rw [← h3]
  exact hg 0 2 (by decide) (by decide)

/-- C4: CONFIRMED.  Whenever the padding step of convolve returns the
buffer padded and convolve itself succeeds, each channel i of the output
pixel at (x, y) is the accumulated sum clamped between the casts into T of
the SOURCE subpixel bounds sMin and sMax (not the output bounds), then cast
to the output subpixel type with the zero fallback oZero on cast failure. -/
theorem c4_clamp_source_bounds [Zero S] [Zero O] (cn : ConvNum S T O)
    (kern : Kernel T) (img padded : Image2d (Pix n S))
    (out : Image2d (Pix n O)) (padding : Padding (Pix n S)) (x y : Nat)
    (hn : 0 < n)
    (hpad : padding.apply img (kern.radius, kern.radius) = Except.ok padded)
    (hconv : kern.convolve cn img padding = Except.ok out)
    (hx : x < img.width) (hy : y < img.height)
    (hpw : img.width ≤ padded.width) (hph : img.height ≤ padded.height)
    (hwfp : padded.data.length = padded.width * padded.height)
    (hch : ∀ p ∈ padded.data, p.data.length = n) :
    get_pixel out x y = ⟨(List.range n).map (fun i =>
      (cn.castTO (num_clamp cn.tLt
        (((rect_iter_list padded
            ⟨x, y, min (2 * kern.radius + 1) (img.width - x),
                   min (2 * kern.radius + 1) (img.height - y)⟩).zip kern.elems).foldl
          (fun t pe => cn.tAdd t (cn.tMul pe.2 (cn.castST (pe.1.data.getD i cn.sMin))))
          cn.tZero)
        (cn.castST cn.sMin) (cn.castST cn.sMax))).getD cn.oZero)⟩ := by
  unfold Kernel.convolve at hconv
  rw [hpad, ok_bind] at hconv
  cases hdata : mapExcept (fun p => convolve_pixel cn kern img padded p.1 p.2)
      (rowMajor img.width img.height) with
  | error e =>
    rw [hdata, err_bind] at hconv
    exact Except.noConfusion hconv
  | ok data =>
    rw [hdata, ok_bind] at hconv
    have hout : out = ⟨img.width, img.height, data⟩ := by
      cases hconv
      rfl
    have hk : y * img.width + x < (rowMajor img.width img.height).length := by
      rw [rowMajor_length]
      exact idx_lt _ _ _ _ hx hy
    have hpt := mapExcept_ok_getD hdata (y * img.width + x) hk (0, 0) default
    rw [rowMajor_getD img.width img.height x y hx hy (0, 0)] at hpt
    have hpt2 : convolve_pixel cn kern img padded x y =
        Except.ok (data.getD (y * img.width + x) default) := hpt
    rw [convolve_pixel_char cn kern img padded x y hn hx hy hpw hph hwfp hch] at hpt2
    injection hpt2 with h2
    rw [hout]
    exact h2.symm

/-- C4 witness: the clamp-and-cast characterization on the 1-by-1 u16 image
with value 1000, the radius-0 unit kernel, constant-0 padding and a u8
output: the channel sum 1000 is clamped against the SOURCE (u16) bounds
[0, 65535] — which leaves it at 1000 — the cast to u8 then fails, and the
output pixel is the fallback 0.  (Clamping by the OUTPUT bounds would have
produced 255.) -/
theorem c4_clamp_source_bounds_witness :
    unitKernel.convolve ctxU16toU8 img1x1u16 (Padding.constant ⟨[0]⟩) =
      Except.ok ⟨1, 1, [⟨[0]⟩]⟩ ∧
    get_pixel (⟨1, 1, [⟨[0]⟩]⟩ : Image2d (Pix 1 ℕ)) 0 0 = ⟨[0]⟩ := by
  have hconv : unitKernel.convolve ctxU16toU8 img1x1u16 (Padding.constant ⟨[0]⟩) =
      Except.ok ⟨1, 1, [⟨[0]⟩]⟩ := by with_unfolding_all rfl
  refine ⟨hconv, ?_⟩
  have h := c4_clamp_source_bounds ctxU16toU8 unitKernel img1x1u16 img1x1u16
    (⟨1, 1, [⟨[0]⟩]⟩ : Image2d (Pix 1 ℕ)) (Padding.constant ⟨[0]⟩) 0 0
    (by decide) rfl hconv (by decide) (by decide) (by decide) (by decide)
    (by decide) (by decide)
  rw [h]
  with_unfolding_all decide

/-- C5: CONFIRMED.  For every padding mode, every image and every size
1 ≤ r that is at most either dimension — the sizes admissible for all four
modes — Padding::apply succeeds, the result has dimensions (w+2r, h+2r),
and its sub-image at offset (r, r) is the original image pixel for pixel:
the margin-patching steps never overwrite the interior. -/
theorem c5_padding_interior [Inhabited P] [Zero P] (img : Image2d P)
    (r : Nat) (pd : Padding P) (hr : 1 ≤ r) (hrw : r ≤ img.width)
    (hrh : r ≤ img.height) :
    ∃ p, pd.apply img (r, r) = Except.ok p ∧
      p.width = img.width + 2 * r ∧ p.height = img.height + 2 * r ∧
      ∀ x y, x < img.width → y < img.height →
        get_pixel p (r + x) (r + y) = get_pixel img x y := by
  cases pd with
  | constant v =>
    obtain ⟨p, h, hw, hh, _, hg⟩ := pad_constant_char img r v (by omega) (by omega)
    refine ⟨p, h, hw, hh, ?_⟩
    intro x y hx hy
    rw [hg (r + x) (r + y) (by omega) (by omega), if_pos (by omega)]
    exact get_pixel_congr img (by omega) (by omega)
  | replicate =>
    exact pad_replicate_char img r hr (by omega) (by omega)
  | wrap =>
    obtain ⟨p, h, hw, hh, hg⟩ := pad_wrap_char img r hr hrw hrh
    refine ⟨p, h, hw, hh, ?_⟩
    intro x y hx hy
    rw [hg (r + x) (r + y) (by omega) (by omega)]
    refine get_pixel_congr img ?_ ?_
    · rw [show r + x + img.width - r = x + img.width by omega,
        Nat.add_mod_right, Nat.mod_eq_of_lt hx]
    · rw [show r + y + img.height - r = y + img.height by omega,
        Nat.add_mod_right, Nat.mod_eq_of_lt hy]
  | mirror =>
    obtain ⟨p, h, hw, hh, hg⟩ := pad_mirror_char img r hr hrw hrh
    refine ⟨p, h, hw, hh, ?_⟩
    intro x y hx hy
    rw [hg (r + x) (r + y) (by omega) (by omega)]
    refine get_pixel_congr img ?_ ?_ <;>
    · unfold reflIdx
      rw [if_neg (by omega), if_pos (by omega)]
      omega

/-- C5 witness: the interior invariant instantiated on the 2-by-2 image
with r = 1 in mirror mode: the padded cell (1+0, 1+1) holds source pixel
(0, 1) = 3. -/
theorem c5_padding_interior_witness :
    Padding.mirror.apply img2x2 (1, 1) = Except.ok mirrorPadded2x2 ∧
    get_pixel mirrorPadded2x2 (1 + 0) (1 + 1) = get_pixel img2x2 0 1 := by
  obtain ⟨p, h1, _, _, hg⟩ :=
    c5_padding_interior img2x2 1 Padding.mirror (by omega) (by decide) (by decide)
  have h2 : Padding.mirror.apply img2x2 (1, 1) = Except.ok mirrorPadded2x2 := rfl
  refine ⟨h2, ?_⟩
  rw [h1] at h2
  injection h2 with h3
  rw [← h3]
  exact hg 0 1 (by decide) (by decide)

/-- C6 (amended): from_vec(w, h, v) fails with InvalidDimensions exactly
when v.len ≠ w*h and otherwise stores v directly.  from_raw_vec, however,
chunks v by the channel count n and only requires the NUMBER OF CHUNKS,
ceil(len/n) = (len + (n-1)) / n, to equal w*h: a trailing partial chunk is
accepted and zero-extended by Pixel::from_slice, so lengths that are not a
multiple of n (hence ≠ n*w*h) can succeed, refuting the claimed
v.len = N*w*h requirement.  Only when v.len is exactly n*w*h is the
row-major flattening of the constructed pixels equal to v. -/
theorem c6_constructors [Zero S] (w h n : Nat) (vP : List P) (v : List S)
    (hn : 1 ≤ n) :
    (vP.length ≠ w * h → from_vec w h vP = Except.error "InvalidDimensions") ∧
    (vP.length = w * h → from_vec w h vP = Except.ok ⟨w, h, vP⟩) ∧
    ((v.length + (n - 1)) / n ≠ w * h →
      from_raw_vec n w h v = Except.error "Buffer has incorrect size.") ∧
    ((v.length + (n - 1)) / n = w * h →
      from_raw_vec n w h v =
        Except.ok ⟨w, h, (listChunks n v).map (fun c => Pix.from_slice n c)⟩) ∧
    (v.length = n * (w * h) →
      ((listChunks n v).map (fun c => (Pix.from_slice n c).data)).flatMap id = v) := by
  have hlen : (listChunks n v).length = (v.length + (n - 1)) / n :=
    listChunks_length n (by omega) v
  refine ⟨?_, ?_, ?_, ?_, ?_⟩
  · intro hne
    unfold from_vec
    rw [if_neg hne]
  · intro he
    unfold from_vec
    rw [if_pos he]
  · intro hne
    unfold from_raw_vec
    dsimp only
    rw [if_neg (by rw [hlen]; exact hne)]
  · intro he
    unfold from_raw_vec
    dsimp only
    rw [if_pos (by rw [hlen]; exact he)]
    unfold from_vec
    rw [if_pos (by rw [List.length_map, hlen]; exact he)]
  · intro hfull
    have hdvd : n ∣ v.length := ⟨w * h, hfull⟩
    have hfl := listChunks_full_length n (by omega) v hdvd
    have hmap : (listChunks n v).map (fun c => (Pix.from_slice n c).data) =
        (listChunks n v).map id := by
      refine List.map_congr_left ?_
      intro c hc
      show (Pix.from_slice n c).data = c
      unfold Pix.from_slice
      exact from_slice_list_full n c (hfl c hc)
    rw [hmap, List.map_id]
    exact listChunks_join n (by omega) v

/-- C6 (counterexample): for the 2-channel pixel type, from_raw_vec accepts
the length-1 buffer [5] for a 1-by-1 image even though 1 ≠ 2*1*1: the single
partial chunk is zero-extended to the pixel (5, 0).  This refutes the
claimed failure whenever v.len ≠ N*w*h. -/
theorem c6_raw_vec_cex :
    from_raw_vec 2 1 1 [(5 : ℕ)] = Except.ok ⟨1, 1, [⟨[5, 0]⟩]⟩ ∧
    [(5 : ℕ)].length ≠ 2 * 1 * 1 := by
  refine ⟨rfl, by decide⟩

/-- C6 witness: the corrected constructor characterization at n = 2 and
w = h = 1: from_vec stores [9] directly, and from_raw_vec accepts the
two-channel buffer [5, 7] as the single pixel (5, 7). -/
theorem c6_constructors_witness :
    from_vec 1 1 [(9 : ℕ)] = Except.ok ⟨1, 1, [9]⟩ ∧
    from_raw_vec 2 1 1 [(5 : ℕ), 7] =
      Except.ok ⟨1, 1, (listChunks 2 [(5 : ℕ), 7]).map (fun c => Pix.from_slice 2 c)⟩ := by
  have h := c6_constructors 1 1 2 [(9 : ℕ)] [(5 : ℕ), 7] (by omega)
  exact ⟨h.2.1 (by decide), h.2.2.2.1 (by decide)⟩

/-- C7: CONFIRMED.  pad_wrap is toroidal: for 1 ≤ r at most either
dimension, it succeeds with dimensions (w+2r, h+2r) and the padded cell
(x, y) holds source pixel ((x + w - r) mod w, (y + h - r) mod h).  In
particular the left margin shows the rightmost r source columns, the right
margin the leftmost r columns, top and bottom margins likewise, and each
corner block comes from the diagonally opposite corner. -/
theorem c7_wrap_toroidal [Inhabited P] [Zero P] (img : Image2d P) (r : Nat)
    (hr : 1 ≤ r) (hrw : r ≤ img.width) (hrh : r ≤ img.height) :
    ∃ p, pad_wrap img (r, r) = Except.ok p ∧
      p.width = img.width + 2 * r ∧ p.height = img.height + 2 * r ∧
      ∀ x y, x < img.width + 2 * r → y < img.height + 2 * r →
        get_pixel p x y =
          get_pixel img ((x + img.width - r) % img.width)
            ((y + img.height - r) % img.height) :=
  pad_wrap_char img r hr hrw hrh

/-- C7 witness: the wrap characterization on the width-4 row [1, 2, 3, 4]
with radius 1: the right-margin cell (5, 1) of the padded buffer holds
source column (5 + 4 - 1) mod 4 = 0 (value 1), and the left-margin cell
(0, 1) holds source column (0 + 4 - 1) mod 4 = 3 (value 4). -/
theorem c7_wrap_toroidal_witness :
    pad_wrap img4x1 (1, 1) = Except.ok wrapPadded4x1 ∧
    get_pixel wrapPadded4x1 5 1 =
      get_pixel img4x1 ((5 + 4 - 1) % 4) ((1 + 1 - 1) % 1) ∧
    get_pixel wrapPadded4x1 0 1 =
      get_pixel img4x1 ((0 + 4 - 1) % 4) ((1 + 1 - 1) % 1) := by
  obtain ⟨p, h1, _, _, hg⟩ := c7_wrap_toroidal img4x1 1 (by omega) (by decide) (by decide)
  have h2 : pad_wrap img4x1 (1, 1) = Except.ok wrapPadded4x1 := rfl
  refine ⟨h2, ?_, ?_⟩
  · rw [h1] at h2
    injection h2 with h3
    rw [← h3]
    exact hg 5 1 (by decide) (by decide)
  · rw [h1] at h2
    injection h2 with h3
    rw [← h3]
    exact hg 0 1 (by decide) (by decide)

/-- C8: CONFIRMED.  Pixel::from_slice and Pixel::set_to_slice are total for
every slice length (the announced panic on short slices never happens):
from_slice builds the n-channel pixel from the first n slice elements with
missing trailing channels left at zero and extra elements ignored, and
set_to_slice overwrites the first min(slice length, channel count) channels
and keeps the remaining channels unchanged. -/
theorem c8_slice_ops_total [Zero S] (n : Nat) (s : List S) (p : Pix n S) :
    (Pix.from_slice n s : Pix n S).data =
      s.take n ++ List.replicate (n - s.length) 0 ∧
    (Pix.from_slice n s : Pix n S).data.length = n ∧
    (p.set_to_slice s).data = s.take p.data.length ++ p.data.drop s.length := by
  refine ⟨?_, ?_, ?_⟩
  · exact from_slice_list_eq n s
  · exact from_slice_list_length n s
  · exact set_to_slice_list_eq p.data s

/-- C9 (amended): for a zero padding size pad_replicate, pad_wrap and
pad_mirror all panic via the Rect constructor's strictly-positive-size
assertion, as claimed.  For sizes exceeding a source dimension, pad_wrap
panics (failed unwrap of the blit fit check) and pad_mirror panics
(out-of-bounds ndarray slice) — not via the unsigned subtraction named in
the claim, which never underflows because the subtrahend is the margin
size, not the source size.  But pad_replicate accepts EVERY strictly
positive size, including sizes exceeding both source dimensions, refuting
the claimed upper precondition for that function. -/
theorem c9_padding_size_preconditions [Inhabited P] [Zero P]
    (img : Image2d P) (r : Nat) (hw : 0 < img.width) (hh : 0 < img.height) :
    (r = 0 →
      pad_replicate img (r, r) =
        Except.error "Rect dimensions must be strictly positive." ∧
      pad_wrap img (r, r) =
        Except.error "Rect dimensions must be strictly positive." ∧
      pad_mirror img (r, r) =
        Except.error "Rect dimensions must be strictly positive.") ∧
    (1 ≤ r → ∃ p, pad_replicate img (r, r) = Except.ok p) ∧
    (img.width < r ∨ img.height < r →
      pad_wrap img (r, r) = Except.error "Source rect does not fit source image." ∧
      pad_mirror img (r, r) = Except.error "ndarray slice out of bounds") := by
  refine ⟨?_, ?_, ?_⟩
  · intro h0
    subst h0
    exact ⟨pad_replicate_zero_size img hw hh, pad_wrap_zero_size img hw hh,
      pad_mirror_zero_size img hw hh⟩
  · intro h1
    obtain ⟨p, hp, _, _, _⟩ := pad_replicate_char img r h1 hw hh
    exact ⟨p, hp⟩
  · intro hover
    exact ⟨pad_wrap_oversize img r hw hh hover, pad_mirror_oversize img r hw hh hover⟩

/-- C9 (counterexample): pad_replicate succeeds on the 2-by-2 image with
padding size 3, which exceeds both source dimensions, instead of
panicking as the claim states. -/
theorem c9_replicate_oversize_cex :
    pad_replicate img2x2 (3, 3) = Except.ok replicatePadded2x2 ∧
    img2x2.width < 3 ∧ img2x2.height < 3 := by
  refine ⟨rfl, by decide, by decide⟩

/-- C9 witness: the size-precondition characterization instantiated on the
2-by-2 image with r = 3: pad_wrap and pad_mirror both panic on this
oversize padding. -/
theorem c9_padding_size_preconditions_witness :
    pad_wrap img2x2 (3, 3) = Except.error "Source rect does not fit source image." ∧
    pad_mirror img2x2 (3, 3) = Except.error "ndarray slice out of bounds" :=
  (c9_padding_size_preconditions img2x2 3 (by decide) (by decide)).2.2
    (Or.inl (by decide))

/-- C10: CONFIRMED.  The provided Pixel::clamp never modifies the pixel it
is called on: the default implementation maps the clamping closure over the
channels into an iterator consumed by count() whose results are discarded,
so for every comparison, pixel and bounds the pixel is returned unchanged. -/
theorem c10_clamp_is_noop (lt : S → S → Bool) (p : Pix n S) (low high : S) :
    Pixel.clamp lt p low high = p := rfl
